import Mathlib

/-!
Verification development for the minnie-janus transaction-correlation and
session-lifecycle core (src/session.js, latest revision in src/unnamed/part_008,
older revision in src/unnamed/part_007, and src/base-plugin.js).

The JavaScript code is shallowly embedded as follows:

* a decoded protocol message (a plain JS object parsed from JSON) is a `Msg`
  record of the fields the core reads: `janus`, `transaction`, `session_id`,
  `sender`, `jsep` (presence of a JSEP payload), `plugin`, `handle_id`,
  `error`, `dataId`;
* the mutable `Session` instance (props and deepProps of session.js) is a
  `SessionState` record, with the `txns`/`transactions` object as an
  association list from transaction token to stored entry, and the timer
  handles replaced by their observable liveness (a timer can fire only while
  its entry is still registered, because `clearTimeout` is called exactly when
  an entry is deleted by `receive`);
* promise resolution/rejection, the `output` and `keepalive_timout` emitter
  events, forwarding to a plugin and a thrown exception are recorded as
  elements of an event trace `Ev`;
* the event-loop interleaving of `send()` calls, transport deliveries into
  `receive()`, timer firings and the suspension points of the `async destroy()`
  method is a small-step machine: `Act` lists the scheduler actions, `stepA`
  executes one action, and `run` executes a list of actions, accumulating the
  trace.  `await Promise.all(pluginDetachPromises)` inside `destroy()` is the
  guard of the `destroyResume` action, and `await this.send(\x7b janus: "destroy" \x7d)`
  is the guard of the `destroyFinish` action, with the progress of the awaited
  promises tracked in `DPhase`.
-/

namespace MinnieJanus

/-- The structured error object carried by an error response
(`msg.error.code`, `msg.error.reason`). -/
structure JErr where
  code : Nat
  reason : String
deriving DecidableEq

/-- A decoded protocol message: the fields of the JSON objects that
session.js and base-plugin.js read or write.  `jsep : Bool` records whether
the message carries a JSEP payload (only its truthiness is ever read, in
`transaction.payload.jsep`).  `dataId` stands for `msg.data.id`. -/
structure Msg where
  janus : String
  transaction : Option String := none
  session_id : Option Nat := none
  sender : Option Nat := none
  jsep : Bool := false
  plugin : Option String := none
  handle_id : Option Nat := none
  error : Option JErr := none
  dataId : Option Nat := none
deriving DecidableEq

/-- JS truthiness of a numeric field that may be absent (`undefined`/`null`
are falsy, and so is the number 0). -/
def natFieldTruthy : Option Nat → Bool
  | none => false
  | some n => n != 0

/-- Decimal digits of a natural number, least significant first, computed with
explicit fuel so that the kernel can evaluate it.  `decDigitsAux fuel n`
agrees with `Nat.digits 10 n` whenever `n ≤ fuel`. -/
def decDigitsAux : Nat → Nat → List Nat
  | _, 0 => []
  | 0, _ + 1 => []
  | fuel + 1, n + 1 => ((n + 1) % 10) :: decDigitsAux fuel ((n + 1) / 10)

/-- Decimal digits of `n`, least significant first. -/
def decDigits (n : Nat) : List Nat := decDigitsAux n n

/-- The character of one decimal digit (codepoint 48 is the digit zero). -/
def decChar (d : Nat) : Char := Char.ofNat (48 + d)

/-- The decimal string representation of a natural number: the model of the
source expression `n.toString()` used to stringify transaction counters
(`this.next_transaction_id.toString()`) and sender identifiers
(`msg.sender.toString()`). -/
def natToken (n : Nat) : String :=
  if n = 0 then "0" else String.mk ((decDigits n).reverse.map decChar)

/-- Lookup in a JS object viewed as an association list (insertion order). -/
def alookup {α : Type} (k : String) : List (String × α) → Option α
  | [] => none
  | (k1, v) :: rest => if k1 = k then some v else alookup k rest

/-- Key deletion (`delete obj[k]`) on a JS object viewed as an association
list. -/
def aremove {α : Type} (k : String) : List (String × α) → List (String × α)
  | [] => []
  | (k1, v) :: rest => if k1 = k then aremove k rest else (k1, v) :: aremove k rest

/-- Key assignment (`obj[k] = v`) on a JS object viewed as an association
list: replaces in place if present, appends otherwise (JS objects keep
insertion order). -/
def aupsert {α : Type} (k : String) (v : α) : List (String × α) → List (String × α)
  | [] => [(k, v)]
  | (k1, v1) :: rest => if k1 = k then (k, v) :: rest else (k1, v1) :: aupsert k v rest

/-- The keys of a JS object viewed as an association list. -/
def akeys {α : Type} (l : List (String × α)) : List String := l.map Prod.fst

/-- One entry of the pending-transaction table (`this.transactions[token]` in
part_008).  The `resolve`/`reject` callbacks and the timer handle are
represented by the machine (settlement events and the `fireTimeout` action);
the entry itself keeps the stored outgoing `payload`. -/
structure Txn where
  payload : Msg
deriving DecidableEq

/-- One entry of the plugin registry (`this.plugins[id]` in part_008):
`\x7b instance: plugin, timeout_cleanup: ... \x7d`.  `handleId` is the
remote-assigned identifier of the plugin instance, `cleanupScheduled` the
liveness of its `timeout_cleanup` timer. -/
structure PluginEntry where
  handleId : Nat
  cleanupScheduled : Bool := false
deriving DecidableEq

/-- The control point of one invocation of the async method `destroy()`
(part_008 lines 79-96).  `waitingDetaches all pending` is the suspension at
`await Promise.all(pluginDetachPromises)`: `all` is the list of transaction
tokens of the issued detach requests and `pending` the ones whose promise has
not settled yet.  `waitingDestroy` is the suspension at
`await this.send(...)` of the destroy request, `destroyResponded` the state
after that promise resolved but before the continuation ran, `done` the state
after the continuation (stopKeepalive and registry cleanup) ran.  The failed
phases are the rejections propagating out of `destroy()`. -/
inductive DPhase
  | idle
  | waitingDetaches (all pending : List String)
  | failedDetach
  | waitingDestroy (all : List String) (tok : String)
  | destroyResponded (all : List String)
  | failedDestroy (all : List String)
  | done (all : List String)
deriving DecidableEq

/-- The mutable state of a Session instance: `props` and `deepProps` of
part_008.  `keepaliveOn` is the liveness of `this.keepalive_timeout`;
`dphase` the control point of a running `destroy()` invocation. -/
structure SessionState where
  id : Option Nat := none
  next_transaction_id : Nat := 0
  transactions : List (String × Txn) := []
  plugins : List (String × PluginEntry) := []
  keepaliveOn : Bool := false
  dphase : DPhase := .idle
deriving DecidableEq

/-- A fresh Session instance (the initial values of `props`/`deepProps`). -/
def initialState : SessionState := {}

/-- The configuration options set by `init` (part_008 lines 307-320). -/
structure Options where
  timeoutMs : Nat
  keepaliveMs : Nat
deriving DecidableEq

/-- The defaults of `init`: `timeoutMs = 5000`, `keepaliveMs = 50000`. -/
def defaultOptions : Options := { timeoutMs := 5000, keepaliveMs := 50000 }

/-- The observable events of one scheduler step:
`output m` is `this.emit(\x27output\x27, m)`;
`resolved t m` is `transaction.resolve(msg)` of the pending transaction `t`;
`rejectedRemote t m` is `transaction.reject(msg.error)` of `t`;
`rejectedTimeout t` is the timeout rejection
`reject(new Error(\x27Signalling message timed out ...\x27))` of `t`;
`forwarded pid m` is `plugin.instance.receive(msg)`;
`raised r` is a `throw new Error(r)` (or a TypeError) escaping `receive`;
`keepaliveNotified` is `this.emit(\x27keepalive_timout\x27)`. -/
inductive Ev
  | output (payload : Msg)
  | resolved (tok : String) (msg : Msg)
  | rejectedRemote (tok : String) (msg : Msg)
  | rejectedTimeout (tok : String)
  | forwarded (pid : String) (msg : Msg)
  | raised (reason : String)
  | keepaliveNotified
deriving DecidableEq

/-- The outgoing payload built by `send(msg)` in part_008 lines 207-213:
`const payload = \x7b ...msg, transaction \x7d; if (this.id) payload.session_id = this.id;`.
The spread copies every field of `msg` into a fresh object, the `transaction`
field is overwritten with the fresh token, and `session_id` is overwritten
only when `this.id` is truthy. -/
def mkPayload (s : SessionState) (msg : Msg) (tok : String) : Msg :=
  let p := { msg with transaction := some tok }
  if natFieldTruthy s.id then { p with session_id := s.id } else p

/-- The synchronous body of `async send(msg)` (part_008 lines 207-238):
increment the counter, stringify it into the token, build the payload,
register the pending transaction with its timeout, and reset the keepalive
timer.  Returns the updated state, the token and the emitted payload. -/
def sendCore (s : SessionState) (msg : Msg) : SessionState × String × Msg :=
  let n := s.next_transaction_id + 1
  let tok := natToken n
  let payload := mkPayload s msg tok
  ({ s with
      next_transaction_id := n,
      transactions := aupsert tok ⟨payload⟩ s.transactions,
      keepaliveOn := true },
    tok, payload)

/-- The sender-dispatch tail of `receive(msg)` (part_008 lines 180-191):
look the sender up in the plugin registry, forward the message, and throw when
no plugin is registered under that identifier; a message with neither a
matching transaction nor a sender is ignored. -/
def receiveSender (s : SessionState) (msg : Msg) : SessionState × List Ev :=
  match msg.sender with
  | some p =>
    if p ≠ 0 then
      match alookup (natToken p) s.plugins with
      | some _ => (s, [Ev.forwarded (natToken p) msg])
      | none => (s, [Ev.raised "Could not find plugin with this ID"])
    else (s, [])
  | none => (s, [])

/-- `receive(msg)` of part_008 (lines 143-191).  If the message carries a
truthy transaction token matching a pending transaction: an `ack` for a
transaction whose outgoing payload carried JSEP data is deferred (no state
change); otherwise the entry is removed (its timeout cleared) and the promise
is rejected with `msg.error` on an error status and resolved with `msg`
otherwise.  An error status without an error object raises a TypeError from
the logging line (`msg.error.code`) after the entry was already removed.
Messages that settle nothing fall through to sender dispatch. -/
def receiveCore (s : SessionState) (msg : Msg) : SessionState × List Ev :=
  match msg.transaction with
  | some t =>
    if t = "" then receiveSender s msg
    else
      match alookup t s.transactions with
      | some txn =>
        if msg.janus = "ack" ∧ txn.payload.jsep = true then (s, [])
        else
          let s1 := { s with transactions := aremove t s.transactions }
          if msg.janus = "error" then
            match msg.error with
            | some _ => (s1, [Ev.rejectedRemote t msg])
            | none => (s1, [Ev.raised "TypeError: msg.error is undefined"])
          else (s1, [Ev.resolved t msg])
      | none => receiveSender s msg
  | none => receiveSender s msg

/-- Whether `msg.session_id && msg.session_id !== this.id` holds (the check
of the older `receive`, part_007 line 133). -/
def sessionMismatch (s : SessionState) (msg : Msg) : Bool :=
  natFieldTruthy msg.session_id && decide (msg.session_id ≠ s.id)

/-- `receive(msg)` of the older revision part_007 (lines 130-174): identical
to part_008 except that a truthy `session_id` differing from `this.id` throws
before anything else. -/
def receiveV7 (s : SessionState) (msg : Msg) : SessionState × List Ev :=
  if sessionMismatch s msg then
    (s, [Ev.raised "Got passed a message which is not for this session"])
  else receiveCore s msg

/-- The token and success flag of a settlement event, if any. -/
def settleEvTok : Ev → Option (String × Bool)
  | .resolved t _ => some (t, true)
  | .rejectedRemote t _ => some (t, false)
  | .rejectedTimeout t => some (t, false)
  | _ => none

/-- How the settlement of one pending transaction moves the control point of a
suspended `destroy()`: a resolved detach token leaves the `Promise.all` wait
set, a rejected one rejects the `Promise.all` (so `destroy()` rethrows), and
the settlement of the destroy request token settles the second `await`. -/
def updatePhase1 (ph : DPhase) (e : Ev) : DPhase :=
  match settleEvTok e with
  | none => ph
  | some (t, ok) =>
    match ph with
    | .waitingDetaches all pending =>
      if t ∈ pending then
        if ok then .waitingDetaches all (pending.erase t) else .failedDetach
      else ph
    | .waitingDestroy all d =>
      if t = d then
        if ok then .destroyResponded all else .failedDestroy all
      else ph
    | _ => ph

/-- Fold of `updatePhase1` over the events of one step. -/
def updatePhase (ph : DPhase) (evs : List Ev) : DPhase := evs.foldl updatePhase1 ph

/-- The opening of `destroy()` (part_008 lines 80-84): for every registry
entry, `plugin.instance.detach()` builds `\x7b janus: "detach", handle_id \x7d`
(base-plugin `detach` via `send`) and passes it to the session `send`,
collecting the issued transaction tokens and output events in registry
order. -/
def detachSends (s : SessionState) : List (String × PluginEntry) → SessionState × List String × List Ev
  | [] => (s, [], [])
  | (_, pe) :: rest =>
    let r1 := sendCore s { janus := "detach", handle_id := some pe.handleId }
    let r2 := detachSends r1.1 rest
    (r2.1, r1.2.1 :: r2.2.1, Ev.output r1.2.2 :: r2.2.2)

/-- The scheduler actions of the event loop:
`send msg` runs the synchronous body of a `send()` call;
`deliver msg` is the transport calling `receive(msg)`;
`fireTimeout t` fires the pending timeout of transaction `t` (enabled only
while the entry exists, because settling an entry clears its timer);
`fireKeepalive` fires the keepalive timer, running `sendKeepalive()`;
`destroyStart` runs `destroy()` up to its first suspension;
`destroyResume` resumes `destroy()` once the `Promise.all` resolved, sending
the destroy request;
`destroyFinish` runs the continuation after the destroy response:
`stopKeepalive()` and the registry cleanup loop. -/
inductive Act
  | send (msg : Msg)
  | deliver (msg : Msg)
  | fireTimeout (t : String)
  | fireKeepalive
  | destroyStart
  | destroyResume
  | destroyFinish
deriving DecidableEq

/-- One scheduler step.  Returns `none` when the action is not enabled (a
timer that is not live, a `destroy()` continuation whose awaited promise has
not settled, and so on). -/
def stepA (s : SessionState) : Act → Option (SessionState × List Ev)
  | .send msg =>
    let r := sendCore s msg
    some (r.1, [Ev.output r.2.2])
  | .deliver msg =>
    let r := receiveCore s msg
    some ({ r.1 with dphase := updatePhase r.1.dphase r.2 }, r.2)
  | .fireTimeout t =>
    match alookup t s.transactions with
    | some _ =>
      some ({ s with
          transactions := aremove t s.transactions,
          dphase := updatePhase s.dphase [Ev.rejectedTimeout t] },
        [Ev.rejectedTimeout t])
    | none => none
  | .fireKeepalive =>
    if s.keepaliveOn then
      let r := sendCore s { janus := "keepalive" }
      some (r.1, [Ev.output r.2.2])
    else none
  | .destroyStart =>
    if s.dphase = DPhase.idle then
      let r := detachSends s s.plugins
      some ({ r.1 with dphase := .waitingDetaches r.2.1 r.2.1 }, r.2.2)
    else none
  | .destroyResume =>
    match s.dphase with
    | .waitingDetaches all [] =>
      let r := sendCore s { janus := "destroy" }
      some ({ r.1 with dphase := .waitingDestroy all r.2.1 }, [Ev.output r.2.2])
    | _ => none
  | .destroyFinish =>
    match s.dphase with
    | .destroyResponded all =>
      some ({ s with keepaliveOn := false, plugins := [], dphase := .done all }, [])
    | _ => none

/-- Execution of a list of scheduler actions, accumulating the event trace. -/
def run (s : SessionState) : List Act → Option (SessionState × List Ev)
  | [] => some (s, [])
  | a :: rest =>
    match stepA s a with
    | none => none
    | some (s1, evs) =>
      match run s1 rest with
      | none => none
      | some (s2, tr) => some (s2, evs ++ tr)

/-- The payloads emitted on the `output` channel during a trace. -/
def outputsOf (tr : List Ev) : List Msg :=
  tr.filterMap fun e => match e with | .output m => some m | _ => none

/-- The transaction tokens of the emitted envelopes of a trace. -/
def issuedToks (tr : List Ev) : List String :=
  (outputsOf tr).filterMap Msg.transaction

/-- The tokens of the settlement events of a trace. -/
def settledToks (tr : List Ev) : List String :=
  tr.filterMap fun e => (settleEvTok e).map Prod.fst

/-- Token bookkeeping invariant of a session state: every key of the
pending-transaction table is the decimal token of a counter value that has
already been consumed. -/
def TokOk (s : SessionState) : Prop :=
  ∀ p ∈ s.transactions, ∃ k, 1 ≤ k ∧ k ≤ s.next_transaction_id ∧ p.1 = natToken k

/-- The value passed to the pending promise rejection on an error status:
`transaction.reject(msg.error)` (part_008 line 165). -/
def rejectionValue (msg : Msg) : Option JErr := msg.error

/-- Every token of `all` is the token of a detach envelope emitted in `tr`:
the record that `destroy()` actually requested these detachments. -/
def DetachReqs (all : List String) (tr : List Ev) : Prop :=
  ∀ t ∈ all, ∃ pl, Ev.output pl ∈ tr ∧ pl.janus = "detach" ∧ pl.transaction = some t

/-- History soundness of a suspended `destroy()` relative to the trace `tr`
emitted so far: the awaited tokens are those of emitted detach envelopes,
every detach token that left the `Promise.all` wait set was resolved, and
once the destroy request is on the wire every detach token was resolved and
the destroy envelope was emitted. -/
def GoodPhaseP (ph : DPhase) (tr : List Ev) : Prop :=
  match ph with
  | .idle => True
  | .failedDetach => True
  | .waitingDetaches all pending =>
      (∀ t ∈ pending, t ∈ all) ∧
      DetachReqs all tr ∧
      ∀ t ∈ all, t ∉ pending → ∃ m, Ev.resolved t m ∈ tr
  | .waitingDestroy all d =>
      DetachReqs all tr ∧
      (∀ t ∈ all, ∃ m, Ev.resolved t m ∈ tr) ∧
      ∃ p, Ev.output p ∈ tr ∧ p.janus = "destroy" ∧ p.transaction = some d
  | .destroyResponded all =>
      DetachReqs all tr ∧
      (∀ t ∈ all, ∃ m, Ev.resolved t m ∈ tr) ∧
      ∃ p, Ev.output p ∈ tr ∧ p.janus = "destroy"
  | .failedDestroy all =>
      DetachReqs all tr ∧
      (∀ t ∈ all, ∃ m, Ev.resolved t m ∈ tr) ∧
      ∃ p, Ev.output p ∈ tr ∧ p.janus = "destroy"
  | .done all =>
      DetachReqs all tr ∧
      (∀ t ∈ all, ∃ m, Ev.resolved t m ∈ tr) ∧
      ∃ p, Ev.output p ∈ tr ∧ p.janus = "destroy"

/-- `GoodPhaseP` at the phase of a session state. -/
def GoodPhase (s : SessionState) (tr : List Ev) : Prop := GoodPhaseP s.dphase tr

/-!
Heap-level view of `send(msg)` for the frame property.  JS objects live on a
heap and are passed by reference; `\x7b ...msg, transaction \x7d` allocates a
fresh object and copies the fields of `msg` into it, and the subsequent
`payload.session_id = this.id` mutates only that fresh object.  The heap is a
list of message objects indexed by allocation order.
-/

/-- Read the object at reference `r`. -/
def heapRead (h : List Msg) (r : Nat) : Option Msg := h[r]?

/-- Allocate a fresh object, returning the extended heap and the new
reference. -/
def heapAlloc (h : List Msg) (m : Msg) : List Msg × Nat := (h ++ [m], h.length)

/-- `send(msg)` with the message object of the caller passed by reference:
reads `msg` from the heap, builds the payload (a fresh allocation, per the
object spread), registers the transaction and returns the new heap, the
payload reference and the payload value.  Fails only on a dangling
reference. -/
def sendHeap (s : SessionState) (h : List Msg) (r : Nat) :
    Option (SessionState × List Msg × Nat × Msg) :=
  match heapRead h r with
  | none => none
  | some msg =>
    let t := sendCore s msg
    let a := heapAlloc h t.2.2
    some (t.1, a.1, a.2, t.2.2)

/-!
The plugin handle (src/base-plugin.js).  `detach()` (lines 123-134) is
`this.send(\x7b janus: "detach" \x7d).then(() => \x7b this.attached = false;
this._onDetached(); this._emit(\x27detached\x27); clearInterval(...) \x7d)`:
the callback of `.then` with no rejection handler runs exactly when the send
promise is fulfilled; a rejection (remote error or timeout) propagates past
it untouched.
-/

/-- The observable state of a BasePlugin instance: the `attached` flag, how
often the overridable `_onDetached` hook ran, how often the one-shot
`detached` event was emitted, and whether the secondly interval was
cleared. -/
structure PluginState where
  id : Option Nat := none
  attached : Bool := false
  hookCalls : Nat := 0
  detachedEmits : Nat := 0
  intervalCleared : Bool := false
deriving DecidableEq

/-- How the promise of one `send` settles, seen from a `.then` chained on
it. -/
inductive Outcome
  | fulfilled (m : Msg)
  | rejectedErr (e : JErr)
  | rejectedTimeout
deriving DecidableEq

/-- The request issued by `BasePlugin.detach()`: plugin `send` merges this
handle identifier into the envelope (`Object.assign(\x7b handle_id: this.id \x7d, obj)`)
and forwards to the session `send`. -/
def pluginDetach (p : PluginState) (s : SessionState) : SessionState × String × Msg :=
  sendCore s { janus := "detach", handle_id := p.id }

/-- The `.then` continuation of `detach()` applied to the settlement of the
underlying send promise: on fulfillment the callback runs (clears the
attached flag, calls `_onDetached`, emits `detached`, clears the interval);
a rejection skips the callback and propagates. -/
def detachOnSettle (p : PluginState) : Outcome → PluginState
  | .fulfilled _ =>
    { p with
        attached := false,
        hookCalls := p.hookCalls + 1,
        detachedEmits := p.detachedEmits + 1,
        intervalCleared := true }
  | .rejectedErr _ => p
  | .rejectedTimeout => p

/-- The settlement outcome carried by a settlement event of the machine. -/
def outcomeOfEv : Ev → Option Outcome
  | .resolved _ m => some (.fulfilled m)
  | .rejectedRemote _ m =>
    match m.error with
    | some e => some (.rejectedErr e)
    | none => none
  | .rejectedTimeout _ => some .rejectedTimeout
  | _ => none

/-- Protocol well-formedness of the delivered messages of a schedule: an
error status carries the structured error object (response envelope format,
as the remote side produces it).  Without this a malformed error response
makes `receive` raise a TypeError after deleting the entry, so the pending
promise would never settle. -/
def WFActs (acts : List Act) : Prop :=
  ∀ msg, Act.deliver msg ∈ acts → msg.janus = "error" → msg.error ≠ none

end MinnieJanus

namespace MinnieJanus

/-! ### Decimal token lemmas -/

theorem decDigitsAux_eq : ∀ fuel n : Nat, n ≤ fuel → decDigitsAux fuel n = Nat.digits 10 n := by
  intro fuel
  induction fuel with
  | zero =>
    intro n hn
    interval_cases n
    rw [show decDigitsAux 0 0 = [] from rfl, Nat.digits_zero]
  | succ f ih =>
    intro n hn
    cases n with
    | zero => rw [show decDigitsAux (f + 1) 0 = [] from rfl, Nat.digits_zero]
    | succ m =>
      rw [decDigitsAux, @Nat.digits_def' 10 (by norm_num) (m + 1) (Nat.succ_pos m)]
      have hdiv : (m + 1) / 10 ≤ f := by
        have := Nat.div_lt_self (Nat.succ_pos m) (by norm_num : 1 < 10)
        omega
      rw [ih _ hdiv]

theorem decDigits_eq (n : Nat) : decDigits n = Nat.digits 10 n :=
  decDigitsAux_eq n n le_rfl

theorem decChar_inj : ∀ d1 < 10, ∀ d2 < 10, decChar d1 = decChar d2 → d1 = d2 := by decide

theorem map_decChar_inj :
    ∀ l1 l2 : List Nat, (∀ d ∈ l1, d < 10) → (∀ d ∈ l2, d < 10) →
      l1.map decChar = l2.map decChar → l1 = l2 := by
  intro l1
  induction l1 with
  | nil =>
    intro l2 _ _ h
    cases l2 with
    | nil => rfl
    | cons b t => simp at h
  | cons a t ih =>
    intro l2 h1 h2 h
    cases l2 with
    | nil => simp at h
    | cons b t2 =>
      simp only [List.map_cons, List.cons.injEq] at h
      have ha : a = b :=
        decChar_inj a (h1 a (by simp)) b (h2 b (by simp)) h.1
      have ht : t = t2 :=
        ih t2 (fun d hd => h1 d (by simp [hd])) (fun d hd => h2 d (by simp [hd])) h.2
      rw [ha, ht]

theorem natToken_zero_of (n : Nat) (h : natToken n = "0") : n = 0 := by
  by_contra hn
  rw [natToken, if_neg hn, decDigits_eq] at h
  have hdata : (Nat.digits 10 n).reverse.map decChar = ['0'] := congrArg String.data h
  have hlen : (Nat.digits 10 n).length = 1 := by
    have h2 := congrArg List.length hdata
    simpa using h2
  obtain ⟨d, hd⟩ := List.length_eq_one.mp hlen
  have hd10 : d < 10 := Nat.digits_lt_base (by norm_num) (by rw [hd]; simp)
  have hchar : decChar d = decChar 0 := by
    rw [hd] at hdata
    simp only [List.reverse_cons, List.reverse_nil, List.nil_append, List.map_cons,
      List.map_nil, List.cons.injEq, and_true] at hdata
    rw [hdata]
    decide
  have hd0 : d = 0 := decChar_inj d hd10 0 (by norm_num) hchar
  have hdig : Nat.digits 10 n = [0] := by
    rw [hd, hd0]
  have hof := Nat.ofDigits_digits 10 n
  rw [hdig] at hof
  simp [Nat.ofDigits] at hof
  exact hn hof.symm

theorem natToken_injective : Function.Injective natToken := by
  intro m n h
  by_cases hm : m = 0
  · subst hm
    exact (natToken_zero_of n h.symm).symm
  · by_cases hn : n = 0
    · subst hn
      exact natToken_zero_of m h
    · rw [natToken, if_neg hm, natToken, if_neg hn, decDigits_eq, decDigits_eq] at h
      have hdata := congrArg String.data h
      simp only at hdata
      have hrev :
          (Nat.digits 10 m).reverse = (Nat.digits 10 n).reverse := by
        refine map_decChar_inj _ _ ?_ ?_ hdata
        · intro d hd
          exact Nat.digits_lt_base (by norm_num) (List.mem_reverse.mp hd)
        · intro d hd
          exact Nat.digits_lt_base (by norm_num) (List.mem_reverse.mp hd)
      have hdig : Nat.digits 10 m = Nat.digits 10 n := List.reverse_inj.mp hrev
      exact Nat.digits_inj_iff.mp hdig

/-! ### Association-list lemmas -/

theorem alookup_aupsert_self {α : Type} (k : String) (v : α) (l : List (String × α)) :
    alookup k (aupsert k v l) = some v := by
  induction l with
  | nil => simp [aupsert, alookup]
  | cons p rest ih =>
    by_cases h : p.1 = k
    · simp [aupsert, alookup, h]
    · simp [aupsert, alookup, h, ih]

theorem akeys_cons {α : Type} (p : String × α) (l : List (String × α)) :
    akeys (p :: l) = p.1 :: akeys l := rfl

theorem alookup_aupsert_ne {α : Type} (k1 k : String) (v : α) (l : List (String × α))
    (h : k1 ≠ k) : alookup k1 (aupsert k v l) = alookup k1 l := by
  induction l with
  | nil => simp [aupsert, alookup, Ne.symm h]
  | cons p rest ih =>
    obtain ⟨a, w⟩ := p
    by_cases ha : a = k
    · subst ha
      simp [aupsert, alookup, Ne.symm h]
    · simp [aupsert, alookup, ha, ih]

theorem alookup_aremove_self {α : Type} (k : String) (l : List (String × α)) :
    alookup k (aremove k l) = none := by
  induction l with
  | nil => simp [aremove, alookup]
  | cons p rest ih =>
    obtain ⟨a, w⟩ := p
    by_cases h : a = k
    · simp [aremove, h, ih]
    · simp [aremove, alookup, h, ih]

theorem alookup_aremove_ne {α : Type} (k1 k : String) (l : List (String × α)) (h : k1 ≠ k) :
    alookup k1 (aremove k l) = alookup k1 l := by
  induction l with
  | nil => simp [aremove]
  | cons p rest ih =>
    obtain ⟨a, w⟩ := p
    by_cases ha : a = k
    · subst ha
      simp [aremove, alookup, Ne.symm h, ih]
    · simp [aremove, alookup, ha, ih]

theorem mem_akeys_iff_alookup {α : Type} (t : String) (l : List (String × α)) :
    t ∈ akeys l ↔ (alookup t l).isSome := by
  induction l with
  | nil => simp [akeys, alookup]
  | cons p rest ih =>
    rw [akeys_cons, List.mem_cons, alookup]
    by_cases h : p.1 = t
    · simp [h]
    · simp [h, Ne.symm h, ih]

theorem akeys_aupsert_fresh {α : Type} (k : String) (v : α) (l : List (String × α))
    (h : alookup k l = none) : akeys (aupsert k v l) = akeys l ++ [k] := by
  induction l with
  | nil => simp [aupsert, akeys]
  | cons p rest ih =>
    obtain ⟨a, w⟩ := p
    rw [alookup] at h
    by_cases ha : a = k
    · rw [if_pos ha] at h
      simp at h
    · rw [if_neg ha] at h
      rw [aupsert, if_neg ha, akeys_cons, akeys_cons, ih h, List.cons_append]

theorem mem_akeys_aremove {α : Type} (t k : String) (l : List (String × α)) :
    t ∈ akeys (aremove k l) ↔ t ∈ akeys l ∧ t ≠ k := by
  induction l with
  | nil => simp [aremove, akeys]
  | cons p rest ih =>
    obtain ⟨a, w⟩ := p
    by_cases ha : a = k
    · subst ha
      rw [aremove, if_pos rfl, akeys_cons, List.mem_cons, ih]
      constructor
      · rintro ⟨hm, hne⟩
        exact ⟨Or.inr hm, hne⟩
      · rintro ⟨hm | hm, hne⟩
        · exact absurd hm hne
        · exact ⟨hm, hne⟩
    · rw [aremove, if_neg ha, akeys_cons, akeys_cons, List.mem_cons, List.mem_cons]
      constructor
      · rintro (hm | hm)
        · refine ⟨Or.inl hm, ?_⟩
          intro hh
          apply ha
          have hta : t = a := hm
          rw [← hta]
          exact hh
        · exact ⟨Or.inr (ih.mp hm).1, (ih.mp hm).2⟩
      · rintro ⟨hm | hm, hne⟩
        · exact Or.inl hm
        · exact Or.inr (ih.mpr ⟨hm, hne⟩)

theorem nodup_akeys_aremove {α : Type} (k : String) (l : List (String × α))
    (h : (akeys l).Nodup) : (akeys (aremove k l)).Nodup := by
  induction l with
  | nil => simp [aremove, akeys]
  | cons p rest ih =>
    obtain ⟨a, w⟩ := p
    rw [akeys_cons, List.nodup_cons] at h
    by_cases ha : a = k
    · rw [aremove, if_pos ha]
      exact ih h.2
    · rw [aremove, if_neg ha, akeys_cons, List.nodup_cons]
      refine ⟨?_, ih h.2⟩
      intro hmem
      exact h.1 (((mem_akeys_aremove a k rest).mp hmem).1)

theorem nodup_akeys_aupsert_fresh {α : Type} (k : String) (v : α) (l : List (String × α))
    (hn : (akeys l).Nodup) (h : alookup k l = none) : (akeys (aupsert k v l)).Nodup := by
  rw [akeys_aupsert_fresh k v l h]
  rw [List.nodup_append]
  refine ⟨hn, List.nodup_singleton k, ?_⟩
  intro t ht htk
  rw [List.mem_singleton] at htk
  subst htk
  rw [mem_akeys_iff_alookup, h] at ht
  simp at ht

theorem natToken_ne_empty (n : Nat) : natToken n ≠ "" := by
  intro h
  by_cases hn : n = 0
  · rw [hn] at h
    exact absurd h (by decide)
  · rw [natToken, if_neg hn, decDigits_eq] at h
    have hdata : (Nat.digits 10 n).reverse.map decChar = [] := congrArg String.data h
    have hlen : (Nat.digits 10 n).length = 0 := by
      have h2 := congrArg List.length hdata
      simpa using h2
    have hne := (@Nat.digits_ne_nil_iff_ne_zero 10 n).mpr hn
    exact hne (List.eq_nil_of_length_eq_zero hlen)

/-! ### Claim C2: timeout rejection -/

/-- Claim C2: if the timeout of a pending transaction fires before a response
is delivered, the promise is rejected with the timeout error and the entry is
removed from the table, which afterwards no longer contains the token; the
default timeout window set by `init` is 5000 ms. -/
theorem timeout_rejects_and_removes (s : SessionState) (t : String) (txn : Txn)
    (h : alookup t s.transactions = some txn) :
    (∃ s1, stepA s (Act.fireTimeout t) = some (s1, [Ev.rejectedTimeout t]) ∧
      alookup t s1.transactions = none) ∧
    defaultOptions.timeoutMs = 5000 := by
  constructor
  · refine ⟨{ s with
        transactions := aremove t s.transactions,
        dphase := updatePhase s.dphase [Ev.rejectedTimeout t] }, ?_, ?_⟩
    · simp [stepA, h]
    · exact alookup_aremove_self t s.transactions
  · rfl

/-- Witness for C2 at a concrete pending transaction. -/
theorem timeout_rejects_and_removes_witness :
    (∃ s1, stepA { transactions := [("1", ⟨{ janus := "create" }⟩)] }
        (Act.fireTimeout "1") = some (s1, [Ev.rejectedTimeout "1"]) ∧
      alookup "1" s1.transactions = none) ∧
    defaultOptions.timeoutMs = 5000 :=
  timeout_rejects_and_removes
    { transactions := [("1", ⟨{ janus := "create" }⟩)] } "1"
    ⟨{ janus := "create" }⟩ (by decide)

/-! ### Claim C5: JSEP acknowledgment deferral -/

/-- Claim C5: an `ack` for a pending transaction whose outgoing payload
carried a JSEP payload does not settle the transaction: `receive` returns with
no events and no state change, the entry (with its live timeout) stays in the
table, and a later non-ack message under the same token settles it. -/
theorem jsep_ack_defers_settlement (s : SessionState) (t : String) (txn : Txn) (msg : Msg)
    (hlk : alookup t s.transactions = some txn)
    (hjsep : txn.payload.jsep = true)
    (htr : msg.transaction = some t) (hne : t ≠ "")
    (hack : msg.janus = "ack") :
    receiveCore s msg = (s, []) ∧
    alookup t (receiveCore s msg).1.transactions = some txn ∧
    ∀ m2 : Msg, m2.transaction = some t → m2.janus = "success" →
      (receiveCore s m2).2 = [Ev.resolved t m2] ∧
      alookup t (receiveCore s m2).1.transactions = none := by
  have hmain : receiveCore s msg = (s, []) := by
    simp [receiveCore, htr, hne, hlk, hack, hjsep]
  refine ⟨hmain, ?_, ?_⟩
  · rw [hmain]
    exact hlk
  · intro m2 h2t h2j
    have h2 : receiveCore s m2 =
        ({ s with transactions := aremove t s.transactions }, [Ev.resolved t m2]) := by
      simp [receiveCore, h2t, hne, hlk, h2j]
    rw [h2]
    exact ⟨rfl, alookup_aremove_self t s.transactions⟩

/-- Witness for C5 at a concrete JSEP-carrying transaction and ack. -/
theorem jsep_ack_defers_settlement_witness :
    receiveCore
        { transactions := [("1", ⟨{ janus := "message", jsep := true }⟩)] }
        { janus := "ack", transaction := some "1" } =
      ({ transactions := [("1", ⟨{ janus := "message", jsep := true }⟩)] }, []) ∧
    alookup "1" (receiveCore
        { transactions := [("1", ⟨{ janus := "message", jsep := true }⟩)] }
        { janus := "ack", transaction := some "1" }).1.transactions =
      some ⟨{ janus := "message", jsep := true }⟩ ∧
    ∀ m2 : Msg, m2.transaction = some "1" → m2.janus = "success" →
      (receiveCore { transactions := [("1", ⟨{ janus := "message", jsep := true }⟩)] } m2).2 =
        [Ev.resolved "1" m2] ∧
      alookup "1" (receiveCore
        { transactions := [("1", ⟨{ janus := "message", jsep := true }⟩)] } m2).1.transactions =
        none :=
  jsep_ack_defers_settlement
    { transactions := [("1", ⟨{ janus := "message", jsep := true }⟩)] } "1"
    ⟨{ janus := "message", jsep := true }⟩
    { janus := "ack", transaction := some "1" }
    (by decide) (by decide) (by decide) (by decide) (by decide)

/-! ### Claim C6: remote error rejection -/

/-- Claim C6: a correlated response with an error status removes the pending
entry and rejects the pending promise with the structured remote error object
`msg.error`, carrying the remote numeric code and reason text, which the
caller that issued the request observes (in particular code 460 for an attach
of an unrecognized plugin name, see the witness). -/
theorem remote_error_rejects_with_code (s : SessionState) (t : String) (txn : Txn)
    (msg : Msg) (c : Nat) (rsn : String)
    (hlk : alookup t s.transactions = some txn)
    (htr : msg.transaction = some t) (hne : t ≠ "")
    (herr : msg.janus = "error")
    (he : msg.error = some { code := c, reason := rsn }) :
    receiveCore s msg =
      ({ s with transactions := aremove t s.transactions }, [Ev.rejectedRemote t msg]) ∧
    rejectionValue msg = some { code := c, reason := rsn } ∧
    alookup t (receiveCore s msg).1.transactions = none := by
  have hmain : receiveCore s msg =
      ({ s with transactions := aremove t s.transactions }, [Ev.rejectedRemote t msg]) := by
    simp [receiveCore, htr, hne, hlk, herr, he]
  refine ⟨hmain, he, ?_⟩
  rw [hmain]
  exact alookup_aremove_self t s.transactions

/-- Witness for C6: the attach-with-unrecognized-plugin-name scenario; the
remote answers with code 460 and the pending attach promise is rejected with
an error value exposing code 460. -/
theorem remote_error_rejects_with_code_witness :
    receiveCore
        { id := some 1,
          transactions :=
            [("1", ⟨{ janus := "attach", plugin := some "invalid_plugin_name" }⟩)] }
        { janus := "error", transaction := some "1", session_id := some 1,
          error := some { code := 460, reason := "No such plugin" } } =
      ({ id := some 1, transactions := [] },
        [Ev.rejectedRemote "1"
          { janus := "error", transaction := some "1", session_id := some 1,
            error := some { code := 460, reason := "No such plugin" } }]) ∧
    rejectionValue
        { janus := "error", transaction := some "1", session_id := some 1,
          error := some { code := 460, reason := "No such plugin" } } =
      some { code := 460, reason := "No such plugin" } ∧
    alookup "1" (receiveCore
        { id := some 1,
          transactions :=
            [("1", ⟨{ janus := "attach", plugin := some "invalid_plugin_name" }⟩)] }
        { janus := "error", transaction := some "1", session_id := some 1,
          error := some { code := 460, reason := "No such plugin" } }).1.transactions = none := by
  have h := remote_error_rejects_with_code
    { id := some 1,
      transactions := [("1", ⟨{ janus := "attach", plugin := some "invalid_plugin_name" }⟩)] }
    "1" ⟨{ janus := "attach", plugin := some "invalid_plugin_name" }⟩
    { janus := "error", transaction := some "1", session_id := some 1,
      error := some { code := 460, reason := "No such plugin" } }
    460 "No such plugin" (by decide) (by decide) (by decide) (by decide) (by decide)
  refine ⟨?_, h.2.1, h.2.2⟩
  rw [h.1]
  decide

/-! ### Claim C7: routing errors raised by receive -/

/-- Counterexample to C7 as stated: the current `receive` (part_008) does not
check the session identifier.  A message whose `session_id` (99) mismatches
the session identifier (1) but whose token matches a pending transaction does
not raise: it settles the transaction normally. -/
theorem receive_mismatch_cex :
    sessionMismatch
        { id := some 1, next_transaction_id := 1,
          transactions := [("1", ⟨{ janus := "create", transaction := some "1" }⟩)] }
        { janus := "success", transaction := some "1", session_id := some 99 } = true ∧
    ¬ (∃ r, Ev.raised r ∈ (receiveCore
        { id := some 1, next_transaction_id := 1,
          transactions := [("1", ⟨{ janus := "create", transaction := some "1" }⟩)] }
        { janus := "success", transaction := some "1", session_id := some 99 }).2) ∧
    (receiveCore
        { id := some 1, next_transaction_id := 1,
          transactions := [("1", ⟨{ janus := "create", transaction := some "1" }⟩)] }
        { janus := "success", transaction := some "1", session_id := some 99 }).2 =
      [Ev.resolved "1"
        { janus := "success", transaction := some "1", session_id := some 99 }] ∧
    alookup "1" (receiveCore
        { id := some 1, next_transaction_id := 1,
          transactions := [("1", ⟨{ janus := "create", transaction := some "1" }⟩)] }
        { janus := "success", transaction := some "1", session_id := some 99 }).1.transactions =
      none := by
  refine ⟨by decide, ?_, by decide, by decide⟩
  rintro ⟨r, hr⟩
  have hc : (receiveCore
      { id := some 1, next_transaction_id := 1,
        transactions := [("1", ⟨{ janus := "create", transaction := some "1" }⟩)] }
      { janus := "success", transaction := some "1", session_id := some 99 }).2 =
      [Ev.resolved "1"
        { janus := "success", transaction := some "1", session_id := some 99 }] := by decide
  rw [hc] at hr
  simp at hr

/-- Claim C7, amended: in the current `receive` (part_008) a message whose
sender identifier has no registered handle raises synchronously (when no
pending transaction matched its token), with no state change, no settlement
and no handle dispatch; the session-identifier mismatch check does not exist
there — a mismatching message with a matching token settles the transaction
normally — and only the older `receive` (part_007) raises on a session
mismatch, before settling anything. -/
theorem receive_raises_amended :
    (∀ (s : SessionState) (msg : Msg) (p : Nat),
      (∀ t, msg.transaction = some t → t = "" ∨ alookup t s.transactions = none) →
      msg.sender = some p → p ≠ 0 → alookup (natToken p) s.plugins = none →
      receiveCore s msg = (s, [Ev.raised "Could not find plugin with this ID"])) ∧
    (∀ (s : SessionState) (msg : Msg) (t : String) (txn : Txn),
      sessionMismatch s msg = true →
      alookup t s.transactions = some txn →
      msg.transaction = some t → t ≠ "" → msg.janus = "success" →
      receiveCore s msg =
        ({ s with transactions := aremove t s.transactions }, [Ev.resolved t msg])) ∧
    (∀ (s : SessionState) (msg : Msg),
      sessionMismatch s msg = true →
      receiveV7 s msg = (s, [Ev.raised "Got passed a message which is not for this session"])) := by
  refine ⟨?_, ?_, ?_⟩
  · intro s msg p hnm hs hp hreg
    have hsender : receiveSender s msg =
        (s, [Ev.raised "Could not find plugin with this ID"]) := by
      simp [receiveSender, hs, hp, hreg]
    match htr : msg.transaction with
    | none =>
      simp only [receiveCore, htr]
      exact hsender
    | some t =>
      rcases hnm t htr with he | hlk
      · simp only [receiveCore, htr]
        rw [if_pos he]
        exact hsender
      · simp only [receiveCore, htr]
        by_cases he : t = ""
        · rw [if_pos he]
          exact hsender
        · rw [if_neg he, hlk]
          exact hsender
  · intro s msg t txn _ hlk htr hne hjan
    simp [receiveCore, htr, hne, hlk, hjan]
  · intro s msg hmm
    rw [receiveV7, if_pos hmm]

/-- Witness for the amended C7 at concrete inputs: an unknown-sender push
raises; a session-mismatching correlated response settles; the older receive
raises on the same mismatch. -/
theorem receive_raises_amended_witness :
    receiveCore { id := some 1 } { janus := "event", sender := some 7 } =
      ({ id := some 1 }, [Ev.raised "Could not find plugin with this ID"]) ∧
    receiveCore
        { id := some 1, next_transaction_id := 1,
          transactions := [("1", ⟨{ janus := "create", transaction := some "1" }⟩)] }
        { janus := "success", transaction := some "1", session_id := some 99 } =
      ({ id := some 1, next_transaction_id := 1, transactions := [] },
        [Ev.resolved "1"
          { janus := "success", transaction := some "1", session_id := some 99 }]) ∧
    receiveV7 { id := some 1 } { janus := "event", sender := some 7, session_id := some 99 } =
      ({ id := some 1 },
        [Ev.raised "Got passed a message which is not for this session"]) := by
  refine ⟨?_, ?_, ?_⟩
  · exact receive_raises_amended.1 { id := some 1 } { janus := "event", sender := some 7 } 7
      (by intro t ht; simp at ht) (by decide) (by decide) (by decide)
  · have h := receive_raises_amended.2.1
      { id := some 1, next_transaction_id := 1,
        transactions := [("1", ⟨{ janus := "create", transaction := some "1" }⟩)] }
      { janus := "success", transaction := some "1", session_id := some 99 }
      "1" ⟨{ janus := "create", transaction := some "1" }⟩
      (by decide) (by decide) (by decide) (by decide) (by decide)
    rw [h]
    decide
  · exact receive_raises_amended.2.2 { id := some 1 }
      { janus := "event", sender := some 7, session_id := some 99 } (by decide)

/-! ### Claim C9: effects of detach settlement -/

/-- Counterexample to C9 as stated: when the underlying detach request is
rejected (for example by its timeout), the `.then` callback of `detach()` is
skipped, so the handle is still marked attached, the post-detach hook has not
run and no one-shot detached notification was emitted — contradicting the
claim that these effects happen on every settlement. -/
theorem detach_reject_cex :
    ¬ ((detachOnSettle { id := some 55, attached := true } Outcome.rejectedTimeout).attached
        = false) ∧
    (detachOnSettle { id := some 55, attached := true } Outcome.rejectedTimeout).hookCalls = 0 ∧
    (detachOnSettle { id := some 55, attached := true } Outcome.rejectedTimeout).detachedEmits
      = 0 := by
  decide

/-- Claim C9, amended: `detach()` sends a detach request through the owning
session; when that request is fulfilled (resolved by a correlated response),
the handle is marked not attached, the overridable post-detach hook runs once,
the one-shot detached notification is emitted once and the uptime interval is
cleared; when it is rejected (remote error, or the timeout firing as in the
machine step) none of these effects occur and the rejection propagates. -/
theorem detach_effects_amended (p : PluginState) (s : SessionState) :
    (pluginDetach p s).2.2.janus = "detach" ∧
    (pluginDetach p s).2.2.handle_id = p.id ∧
    (∀ m : Msg, m.transaction = some ((pluginDetach p s).2.1) → m.janus = "success" →
      (receiveCore (pluginDetach p s).1 m).2 = [Ev.resolved ((pluginDetach p s).2.1) m] ∧
      outcomeOfEv (Ev.resolved ((pluginDetach p s).2.1) m) = some (Outcome.fulfilled m) ∧
      (detachOnSettle p (Outcome.fulfilled m)).attached = false ∧
      (detachOnSettle p (Outcome.fulfilled m)).hookCalls = p.hookCalls + 1 ∧
      (detachOnSettle p (Outcome.fulfilled m)).detachedEmits = p.detachedEmits + 1 ∧
      (detachOnSettle p (Outcome.fulfilled m)).intervalCleared = true) ∧
    detachOnSettle p Outcome.rejectedTimeout = p ∧
    (∀ e, detachOnSettle p (Outcome.rejectedErr e) = p) := by
  have htok : (pluginDetach p s).2.1 = natToken (s.next_transaction_id + 1) := rfl
  have hlk : alookup ((pluginDetach p s).2.1) (pluginDetach p s).1.transactions =
      some ⟨(pluginDetach p s).2.2⟩ := by
    rw [htok]
    exact alookup_aupsert_self _ _ _
  refine ⟨?_, ?_, ?_, rfl, fun e => rfl⟩
  · rw [pluginDetach, sendCore]
    rw [mkPayload]
    by_cases hid : natFieldTruthy s.id
    · simp [hid]
    · simp [hid]
  · rw [pluginDetach, sendCore]
    rw [mkPayload]
    by_cases hid : natFieldTruthy s.id
    · simp [hid]
    · simp [hid]
  · intro m htr hjan
    have hne : (pluginDetach p s).2.1 ≠ "" := by
      rw [htok]
      exact natToken_ne_empty _
    have hrc : receiveCore (pluginDetach p s).1 m =
        ({ (pluginDetach p s).1 with
            transactions := aremove ((pluginDetach p s).2.1) (pluginDetach p s).1.transactions },
          [Ev.resolved ((pluginDetach p s).2.1) m]) := by
      simp [receiveCore, htr, hne, hlk, hjan]
    rw [hrc]
    exact ⟨rfl, rfl, rfl, rfl, rfl, rfl⟩

/-! ### Characterization lemmas for the machine steps -/

theorem receiveSender_cases (s : SessionState) (msg : Msg) :
    (receiveSender s msg).1 = s ∧
    ((receiveSender s msg).2 = [] ∨
     (∃ pid, (receiveSender s msg).2 = [Ev.forwarded pid msg]) ∨
     (∃ r, (receiveSender s msg).2 = [Ev.raised r])) := by
  rw [receiveSender]
  split
  · split
    · split
      · exact ⟨rfl, Or.inr (Or.inl ⟨_, rfl⟩)⟩
      · exact ⟨rfl, Or.inr (Or.inr ⟨_, rfl⟩)⟩
    · exact ⟨rfl, Or.inl rfl⟩
  · exact ⟨rfl, Or.inl rfl⟩

theorem receiveCore_cases (s : SessionState) (msg : Msg) :
    ((receiveCore s msg).1 = s ∧
      ((receiveCore s msg).2 = [] ∨
       (∃ pid, (receiveCore s msg).2 = [Ev.forwarded pid msg]) ∨
       (∃ r, (receiveCore s msg).2 = [Ev.raised r]))) ∨
    (∃ t, msg.transaction = some t ∧
      (∃ txn, alookup t s.transactions = some txn) ∧
      (receiveCore s msg).1 = { s with transactions := aremove t s.transactions } ∧
      ((receiveCore s msg).2 = [Ev.resolved t msg] ∨
       (receiveCore s msg).2 = [Ev.rejectedRemote t msg] ∨
       ((∃ r, (receiveCore s msg).2 = [Ev.raised r]) ∧ msg.janus = "error" ∧
         msg.error = none))) := by
  rw [receiveCore]
  split
  next t htr =>
    split
    · exact Or.inl (receiveSender_cases s msg)
    · split
      next txn hlk =>
        split
        · exact Or.inl ⟨rfl, Or.inl rfl⟩
        · split
          next herr =>
            split
            next e he =>
              exact Or.inr ⟨t, htr, ⟨txn, hlk⟩, rfl, Or.inr (Or.inl rfl)⟩
            next he =>
              exact Or.inr ⟨t, htr, ⟨txn, hlk⟩, rfl, Or.inr (Or.inr ⟨⟨_, rfl⟩, herr, he⟩)⟩
          next herr =>
            exact Or.inr ⟨t, htr, ⟨txn, hlk⟩, rfl, Or.inl rfl⟩
      next hlk =>
        exact Or.inl (receiveSender_cases s msg)
  next htr =>
    exact Or.inl (receiveSender_cases s msg)

theorem run_cons_some (s : SessionState) (a : Act) (rest : List Act) (s2 : SessionState)
    (tr : List Ev) (h : run s (a :: rest) = some (s2, tr)) :
    ∃ s1 evs tr2, stepA s a = some (s1, evs) ∧ run s1 rest = some (s2, tr2) ∧
      tr = evs ++ tr2 := by
  rw [run] at h
  match hstep : stepA s a with
  | none =>
    rw [hstep] at h
    exact absurd h (by simp)
  | some (s1, evs) =>
    rw [hstep] at h
    simp only at h
    match hrun : run s1 rest with
    | none =>
      rw [hrun] at h
      exact absurd h (by simp)
    | some (s3, tr2) =>
      rw [hrun] at h
      simp only at h
      rw [Option.some.injEq, Prod.mk.injEq] at h
      exact ⟨s1, evs, tr2, rfl, h.1 ▸ hrun, h.2.symm⟩

theorem detachSends_outputs (s : SessionState) :
    ∀ l : List (String × PluginEntry),
      ∀ e ∈ (detachSends s l).2.2, ∃ m, e = Ev.output m := by
  intro l
  induction l generalizing s with
  | nil =>
    intro e he
    simp [detachSends] at he
  | cons p rest ih =>
    intro e he
    rw [detachSends] at he
    rcases List.mem_cons.mp he with h | h
    · exact ⟨_, h⟩
    · exact ih _ e h

/-! ### Claim C8: the keepalive-failure notification is unreachable -/

theorem stepA_no_keepalive (s : SessionState) (a : Act) (s1 : SessionState) (evs : List Ev)
    (h : stepA s a = some (s1, evs)) : Ev.keepaliveNotified ∉ evs := by
  cases a with
  | send msg =>
    rw [stepA] at h
    cases h
    simp
  | deliver msg =>
    rw [stepA] at h
    cases h
    rcases receiveCore_cases s msg with ⟨_, hsh⟩ | ⟨t, _, _, _, hsh⟩
    · rcases hsh with hsh | ⟨pid, hsh⟩ | ⟨r, hsh⟩ <;> simp [hsh]
    · rcases hsh with hsh | hsh | ⟨⟨r, hsh⟩, _, _⟩ <;> simp [hsh]
  | fireTimeout t =>
    rw [stepA] at h
    split at h
    · cases h
      simp
    · exact absurd h (by simp)
  | fireKeepalive =>
    rw [stepA] at h
    split at h
    · cases h
      simp
    · exact absurd h (by simp)
  | destroyStart =>
    rw [stepA] at h
    split at h
    · cases h
      intro hmem
      obtain ⟨m, hm⟩ := detachSends_outputs s s.plugins Ev.keepaliveNotified hmem
      exact Ev.noConfusion hm
    · exact absurd h (by simp)
  | destroyResume =>
    rw [stepA] at h
    split at h
    · cases h
      simp
    · exact absurd h (by simp)
  | destroyFinish =>
    rw [stepA] at h
    split at h
    · cases h
      simp
    · exact absurd h (by simp)

/-- Claim C8 (code versus spec): the `keepalive_timout` notification can never
be emitted.  `sendKeepalive` wraps the non-awaited async `send` call in
try/catch, and an async function never throws synchronously, so the catch
branch that would emit the notification is unreachable: a timed-out keepalive
transaction produces an ordinary timeout rejection with no registered handler
(an unhandled promise rejection), not the notification. -/
theorem keepalive_failure_never_notified (s : SessionState) (acts : List Act)
    (s1 : SessionState) (tr : List Ev) (h : run s acts = some (s1, tr)) :
    Ev.keepaliveNotified ∉ tr := by
  induction acts generalizing s tr with
  | nil =>
    rw [run] at h
    cases h
    simp
  | cons a rest ih =>
    obtain ⟨s2, evs, tr2, hstep, hrun, rfl⟩ := run_cons_some s a rest s1 tr h
    intro hmem
    rcases List.mem_append.mp hmem with hm | hm
    · exact stepA_no_keepalive s a s2 evs hstep hm
    · exact ih s2 tr2 hrun hm

/-- Witness for C8: a keepalive request is sent and its transaction times
out; the trace contains the timeout rejection but no keepalive notification. -/
theorem keepalive_failure_never_notified_witness :
    Ev.keepaliveNotified ∉
      [Ev.output { janus := "keepalive", transaction := some "1" },
       Ev.rejectedTimeout "1"] :=
  keepalive_failure_never_notified initialState
    [Act.send { janus := "keepalive" }, Act.fireTimeout "1"]
    { next_transaction_id := 1, transactions := [], keepaliveOn := true }
    [Ev.output { janus := "keepalive", transaction := some "1" },
     Ev.rejectedTimeout "1"]
    (by decide)

/-! ### Claim C10: send does not mutate the caller message -/

/-- Claim C10: `send(msg)` never mutates the caller message object.  The
correlation token and (when the session identifier is known) the session
identifier are written to a freshly allocated copy; that copy is stored with
the pending transaction and is the emitted payload (the same value `sendCore`
produces), while the object the caller passed is unchanged on the heap and
every field of the copy other than `transaction` and `session_id` equals the
caller field. -/
theorem send_does_not_mutate_caller (s : SessionState) (h : List Msg) (r : Nat) (msg : Msg)
    (hr : heapRead h r = some msg) :
    ∃ s1 h1 rp payload,
      sendHeap s h r = some (s1, h1, rp, payload) ∧
      heapRead h1 r = some msg ∧
      rp ≠ r ∧
      heapRead h1 rp = some payload ∧
      sendCore s msg = (s1, natToken (s.next_transaction_id + 1), payload) ∧
      alookup (natToken (s.next_transaction_id + 1)) s1.transactions = some ⟨payload⟩ ∧
      payload.transaction = some (natToken (s.next_transaction_id + 1)) ∧
      payload.janus = msg.janus ∧ payload.jsep = msg.jsep ∧ payload.sender = msg.sender ∧
      payload.plugin = msg.plugin ∧ payload.handle_id = msg.handle_id ∧
      payload.error = msg.error ∧ payload.dataId = msg.dataId ∧
      (natFieldTruthy s.id = true → payload.session_id = s.id) ∧
      (natFieldTruthy s.id = false → payload.session_id = msg.session_id) := by
  have hlt : r < h.length := by
    rw [heapRead] at hr
    exact (List.getElem?_eq_some.mp hr).1
  refine ⟨(sendCore s msg).1, h ++ [(sendCore s msg).2.2], h.length, (sendCore s msg).2.2,
    ?_, ?_, ?_, ?_, ?_, ?_, ?_, ?_, ?_, ?_, ?_, ?_, ?_, ?_, ?_, ?_⟩
  · rw [sendHeap, hr]
    rfl
  · rw [heapRead] at hr ⊢
    rw [List.getElem?_append, if_pos hlt]
    exact hr
  · omega
  · rw [heapRead]
    simp
  · rfl
  · rw [sendCore]
    exact alookup_aupsert_self _ _ _
  · rw [sendCore, mkPayload]
    by_cases hid : natFieldTruthy s.id <;> simp [hid]
  · rw [sendCore, mkPayload]
    by_cases hid : natFieldTruthy s.id <;> simp [hid]
  · rw [sendCore, mkPayload]
    by_cases hid : natFieldTruthy s.id <;> simp [hid]
  · rw [sendCore, mkPayload]
    by_cases hid : natFieldTruthy s.id <;> simp [hid]
  · rw [sendCore, mkPayload]
    by_cases hid : natFieldTruthy s.id <;> simp [hid]
  · rw [sendCore, mkPayload]
    by_cases hid : natFieldTruthy s.id <;> simp [hid]
  · rw [sendCore, mkPayload]
    by_cases hid : natFieldTruthy s.id <;> simp [hid]
  · rw [sendCore, mkPayload]
    by_cases hid : natFieldTruthy s.id <;> simp [hid]
  · intro hid
    rw [sendCore, mkPayload]
    simp [hid]
  · intro hid
    rw [sendCore, mkPayload]
    simp [hid]

/-- Witness for C10 at a concrete heap, message and session. -/
theorem send_does_not_mutate_caller_witness :
    ∃ s1 h1 rp payload,
      sendHeap { id := some 1 } [{ janus := "message", jsep := true }] 0 =
        some (s1, h1, rp, payload) ∧
      heapRead h1 0 = some { janus := "message", jsep := true } ∧
      rp ≠ 0 ∧
      heapRead h1 rp = some payload ∧
      sendCore { id := some 1 } { janus := "message", jsep := true } =
        (s1, natToken 1, payload) ∧
      alookup (natToken 1) s1.transactions = some ⟨payload⟩ ∧
      payload.transaction = some (natToken 1) ∧
      payload.janus = "message" ∧ payload.jsep = true ∧
      payload.sender = none ∧ payload.plugin = none ∧ payload.handle_id = none ∧
      payload.error = none ∧ payload.dataId = none ∧
      (natFieldTruthy (some 1) = true → payload.session_id = some 1) ∧
      (natFieldTruthy (some 1) = false → payload.session_id = none) :=
  send_does_not_mutate_caller { id := some 1 } [{ janus := "message", jsep := true }] 0
    { janus := "message", jsep := true } (by decide)

/-! ### Phase soundness: the machinery for claim C4 -/

theorem mkPayload_janus (s : SessionState) (m : Msg) (tok : String) :
    (mkPayload s m tok).janus = m.janus := by
  rw [mkPayload]
  by_cases h : natFieldTruthy s.id <;> simp [h]

theorem mkPayload_transaction (s : SessionState) (m : Msg) (tok : String) :
    (mkPayload s m tok).transaction = some tok := by
  rw [mkPayload]
  by_cases h : natFieldTruthy s.id <;> simp [h]

theorem receiveCore_dphase (s : SessionState) (msg : Msg) :
    (receiveCore s msg).1.dphase = s.dphase := by
  rcases receiveCore_cases s msg with ⟨h1, _⟩ | ⟨t, _, _, h1, _⟩ <;> rw [h1]

theorem detachReqs_mono (all : List String) (tr tr2 : List Ev)
    (hsub : ∀ e ∈ tr, e ∈ tr2) (h : DetachReqs all tr) : DetachReqs all tr2 := by
  intro t ht
  obtain ⟨pl, hm, hj, htok⟩ := h t ht
  exact ⟨pl, hsub _ hm, hj, htok⟩

theorem goodPhaseP_mono (ph : DPhase) (tr tr2 : List Ev)
    (hsub : ∀ e ∈ tr, e ∈ tr2) (h : GoodPhaseP ph tr) : GoodPhaseP ph tr2 := by
  cases ph with
  | idle => exact trivial
  | failedDetach => exact trivial
  | waitingDetaches all pending =>
    obtain ⟨h1, h2, h3⟩ := h
    exact ⟨h1, detachReqs_mono all tr tr2 hsub h2,
      fun t ht hnp => (h3 t ht hnp).imp fun m hm => hsub _ hm⟩
  | waitingDestroy all d =>
    obtain ⟨hreq, h1, p, hp1, hp2, hp3⟩ := h
    exact ⟨detachReqs_mono all tr tr2 hsub hreq,
      fun t ht => (h1 t ht).imp fun m hm => hsub _ hm, p, hsub _ hp1, hp2, hp3⟩
  | destroyResponded all =>
    obtain ⟨hreq, h1, p, hp1, hp2⟩ := h
    exact ⟨detachReqs_mono all tr tr2 hsub hreq,
      fun t ht => (h1 t ht).imp fun m hm => hsub _ hm, p, hsub _ hp1, hp2⟩
  | failedDestroy all =>
    obtain ⟨hreq, h1, p, hp1, hp2⟩ := h
    exact ⟨detachReqs_mono all tr tr2 hsub hreq,
      fun t ht => (h1 t ht).imp fun m hm => hsub _ hm, p, hsub _ hp1, hp2⟩
  | done all =>
    obtain ⟨hreq, h1, p, hp1, hp2⟩ := h
    exact ⟨detachReqs_mono all tr tr2 hsub hreq,
      fun t ht => (h1 t ht).imp fun m hm => hsub _ hm, p, hsub _ hp1, hp2⟩

theorem settleEvTok_resolved (e : Ev) (t : String)
    (h : settleEvTok e = some (t, true)) : ∃ m, e = Ev.resolved t m := by
  cases e with
  | resolved tok m =>
    rw [settleEvTok, Option.some.injEq, Prod.mk.injEq] at h
    exact ⟨m, by rw [h.1]⟩
  | rejectedRemote tok m => simp [settleEvTok] at h
  | rejectedTimeout tok => simp [settleEvTok] at h
  | output m => simp [settleEvTok] at h
  | forwarded p m => simp [settleEvTok] at h
  | raised r => simp [settleEvTok] at h
  | keepaliveNotified => simp [settleEvTok] at h

theorem sendCore_payload (s : SessionState) (m : Msg) :
    (sendCore s m).2.2 = mkPayload s m (natToken (s.next_transaction_id + 1)) := rfl

theorem sendCore_tok (s : SessionState) (m : Msg) :
    (sendCore s m).2.1 = natToken (s.next_transaction_id + 1) := rfl

theorem updatePhase1_good (ph : DPhase) (e : Ev) (tr2 tr : List Ev)
    (hsub : ∀ x ∈ tr, x ∈ tr2) (he : e ∈ tr2) (h : GoodPhaseP ph tr) :
    GoodPhaseP (updatePhase1 ph e) tr2 := by
  match hse : settleEvTok e with
  | none =>
    simp only [updatePhase1, hse]
    exact goodPhaseP_mono ph tr tr2 hsub h
  | some (t, ok) =>
    cases ph with
    | idle =>
      simp only [updatePhase1, hse]
      exact trivial
    | failedDetach =>
      simp only [updatePhase1, hse]
      exact trivial
    | waitingDetaches all pending =>
      simp only [updatePhase1, hse]
      obtain ⟨h1, h2, h3⟩ := h
      by_cases hp : t ∈ pending
      · rw [if_pos hp]
        cases ok with
        | false =>
          rw [if_neg (by simp)]
          exact trivial
        | true =>
          rw [if_pos rfl]
          obtain ⟨m, hm⟩ := settleEvTok_resolved e t hse
          refine ⟨fun u hu => h1 u (List.mem_of_mem_erase hu),
            detachReqs_mono all tr tr2 hsub h2, ?_⟩
          intro u hu hnotin
          by_cases hut : u = t
          · subst hut
            exact ⟨m, hm ▸ he⟩
          · have hup : u ∉ pending := fun hup =>
              hnotin ((List.mem_erase_of_ne hut).mpr hup)
            exact (h3 u hu hup).imp fun m2 hm2 => hsub _ hm2
      · rw [if_neg hp]
        exact goodPhaseP_mono (.waitingDetaches all pending) tr tr2 hsub ⟨h1, h2, h3⟩
    | waitingDestroy all d =>
      simp only [updatePhase1, hse]
      obtain ⟨hreq, h1, p, hp1, hp2, hp3⟩ := h
      by_cases htd : t = d
      · rw [if_pos htd]
        cases ok with
        | false =>
          rw [if_neg (by simp)]
          exact ⟨detachReqs_mono all tr tr2 hsub hreq,
            fun u hu => (h1 u hu).imp fun m hm => hsub _ hm, p, hsub _ hp1, hp2⟩
        | true =>
          rw [if_pos rfl]
          exact ⟨detachReqs_mono all tr tr2 hsub hreq,
            fun u hu => (h1 u hu).imp fun m hm => hsub _ hm, p, hsub _ hp1, hp2⟩
      · rw [if_neg htd]
        exact goodPhaseP_mono (.waitingDestroy all d) tr tr2 hsub ⟨hreq, h1, p, hp1, hp2, hp3⟩
    | destroyResponded all =>
      simp only [updatePhase1, hse]
      exact goodPhaseP_mono (.destroyResponded all) tr tr2 hsub h
    | failedDestroy all =>
      simp only [updatePhase1, hse]
      exact goodPhaseP_mono (.failedDestroy all) tr tr2 hsub h
    | done all =>
      simp only [updatePhase1, hse]
      exact goodPhaseP_mono (.done all) tr tr2 hsub h

theorem updatePhase_good (tr2 : List Ev) :
    ∀ (evs : List Ev) (ph : DPhase) (tr : List Ev),
      (∀ x ∈ tr, x ∈ tr2) → (∀ e ∈ evs, e ∈ tr2) → GoodPhaseP ph tr →
      GoodPhaseP (updatePhase ph evs) tr2 := by
  intro evs
  induction evs with
  | nil =>
    intro ph tr hsub _ h
    exact goodPhaseP_mono ph tr tr2 hsub h
  | cons e rest ih =>
    intro ph tr hsub hevs h
    have h1 := updatePhase1_good ph e tr2 tr hsub (hevs e (by simp)) h
    exact ih (updatePhase1 ph e) tr2 (fun x hx => hx) (fun x hx => hevs x (by simp [hx])) h1

theorem detachSends_reqs (s : SessionState) :
    ∀ l : List (String × PluginEntry),
      DetachReqs (detachSends s l).2.1 (detachSends s l).2.2 := by
  intro l
  induction l generalizing s with
  | nil =>
    intro t ht
    simp [detachSends] at ht
  | cons p rest ih =>
    intro t ht
    rw [detachSends] at ht ⊢
    rcases List.mem_cons.mp ht with h | h
    · refine ⟨(sendCore s { janus := "detach", handle_id := some p.2.handleId }).2.2,
        by simp, ?_, ?_⟩
      · rw [sendCore_payload]
        exact mkPayload_janus s { janus := "detach", handle_id := some p.2.handleId } _
      · rw [sendCore_payload, mkPayload_transaction, h]
        rfl
    · obtain ⟨pl, hm, hj, htok⟩ :=
        ih (sendCore s { janus := "detach", handle_id := some p.2.handleId }).1 t h
      exact ⟨pl, List.mem_cons_of_mem _ hm, hj, htok⟩

theorem stepA_goodPhase (s : SessionState) (a : Act) (s1 : SessionState) (evs : List Ev)
    (tr : List Ev) (h : stepA s a = some (s1, evs)) (hg : GoodPhase s tr) :
    GoodPhase s1 (tr ++ evs) := by
  have hsub : ∀ x ∈ tr, x ∈ tr ++ evs := fun x hx => List.mem_append.mpr (Or.inl hx)
  cases a with
  | send msg =>
    rw [stepA] at h
    cases h
    exact goodPhaseP_mono s.dphase tr _ hsub hg
  | deliver msg =>
    rw [stepA] at h
    cases h
    show GoodPhaseP (updatePhase (receiveCore s msg).1.dphase (receiveCore s msg).2) _
    rw [receiveCore_dphase]
    exact updatePhase_good _ (receiveCore s msg).2 s.dphase tr hsub
      (fun e he => List.mem_append.mpr (Or.inr he)) hg
  | fireTimeout t =>
    rw [stepA] at h
    split at h
    · cases h
      show GoodPhaseP (updatePhase s.dphase [Ev.rejectedTimeout t]) _
      exact updatePhase_good _ [Ev.rejectedTimeout t] s.dphase tr hsub
        (fun e he => List.mem_append.mpr (Or.inr he)) hg
    · exact absurd h (by simp)
  | fireKeepalive =>
    rw [stepA] at h
    split at h
    · cases h
      exact goodPhaseP_mono s.dphase tr _ hsub hg
    · exact absurd h (by simp)
  | destroyStart =>
    rw [stepA] at h
    split at h
    · cases h
      refine ⟨fun t ht => ht, ?_, ?_⟩
      · exact detachReqs_mono _ _ _ (fun e he => List.mem_append.mpr (Or.inr he))
          (detachSends_reqs s s.plugins)
      · intro t ht hnt
        exact absurd ht hnt
    · exact absurd h (by simp)
  | destroyResume =>
    rw [stepA] at h
    split at h
    next all heq =>
      cases h
      rw [GoodPhase, heq] at hg
      obtain ⟨h1, hreq, h3⟩ := hg
      refine ⟨detachReqs_mono _ _ _ hsub hreq, ?_, ?_⟩
      · intro t ht
        exact (h3 t ht (by simp)).imp fun m hm => hsub _ hm
      · refine ⟨(sendCore s { janus := "destroy" }).2.2, by simp, ?_, ?_⟩
        · rw [sendCore_payload]
          exact mkPayload_janus s { janus := "destroy" } _
        · rw [sendCore_payload, mkPayload_transaction, sendCore_tok]
    next hne =>
      exact absurd h (by simp)
  | destroyFinish =>
    rw [stepA] at h
    split at h
    next all heq =>
      cases h
      rw [GoodPhase, heq] at hg
      obtain ⟨hreq, h1, p, hp1, hp2⟩ := hg
      exact ⟨detachReqs_mono _ _ _ hsub hreq,
        fun t ht => (h1 t ht).imp fun m hm => hsub _ hm, p, hsub _ hp1, hp2⟩
    next hne =>
      exact absurd h (by simp)

theorem run_goodPhase (acts : List Act) :
    ∀ (s : SessionState) (s1 : SessionState) (tr tr0 : List Ev),
      run s acts = some (s1, tr) → GoodPhase s tr0 → GoodPhase s1 (tr0 ++ tr) := by
  induction acts with
  | nil =>
    intro s s1 tr tr0 h hg
    rw [run] at h
    rw [Option.some.injEq, Prod.mk.injEq] at h
    rw [← h.1, ← h.2]
    simpa using hg
  | cons a rest ih =>
    intro s s1 tr tr0 h hg
    obtain ⟨s2, evs, tr2, hstep, hrun, rfl⟩ := run_cons_some s a rest s1 tr h
    have h1 := stepA_goodPhase s a s2 evs tr0 hstep hg
    have h2 := ih s2 s1 tr2 (tr0 ++ evs) hrun h1
    rw [List.append_assoc] at h2
    exact h2

theorem detachSends_len (s : SessionState) :
    ∀ l : List (String × PluginEntry), (detachSends s l).2.1.length = l.length := by
  intro l
  induction l generalizing s with
  | nil => rfl
  | cons p rest ih =>
    rw [detachSends]
    simp only [List.length_cons]
    rw [ih]

/-- Claim C4: `destroy()` first issues a detach request for every registry
entry (one detach envelope per attached handle) and suspends on their joint
completion; whenever the destroy request has been emitted (the phase carries
its token `d`), every awaited detach token belongs to an emitted detach
envelope and has already been resolved; after the destroy response the
continuation clears the keepalive timer, the handle-cleanup timers and the
registry, leaving the plugin registry empty. -/
theorem destroy_awaits_detaches (s : SessionState) (acts : List Act)
    (s1 : SessionState) (tr : List Ev)
    (hidle : s.dphase = DPhase.idle)
    (h : run s acts = some (s1, tr)) :
    (∀ all d, s1.dphase = DPhase.waitingDestroy all d →
      DetachReqs all tr ∧
      (∀ t ∈ all, ∃ m, Ev.resolved t m ∈ tr) ∧
      ∃ p, Ev.output p ∈ tr ∧ p.janus = "destroy" ∧ p.transaction = some d) ∧
    (∀ all, s1.dphase = DPhase.done all →
      DetachReqs all tr ∧
      (∀ t ∈ all, ∃ m, Ev.resolved t m ∈ tr) ∧
      ∃ p, Ev.output p ∈ tr ∧ p.janus = "destroy") ∧
    (∀ s2 s3 evs2, stepA s2 Act.destroyStart = some (s3, evs2) →
      s3.dphase = DPhase.waitingDetaches (detachSends s2 s2.plugins).2.1
          (detachSends s2 s2.plugins).2.1 ∧
      (detachSends s2 s2.plugins).2.1.length = s2.plugins.length ∧
      DetachReqs (detachSends s2 s2.plugins).2.1 evs2) ∧
    (∀ s2 s3 evs2, stepA s2 Act.destroyFinish = some (s3, evs2) →
      s3.plugins = [] ∧ s3.keepaliveOn = false) := by
  have hg0 : GoodPhase s [] := by
    rw [GoodPhase, hidle]
    exact trivial
  have hgp := run_goodPhase acts s s1 tr [] h hg0
  rw [List.nil_append] at hgp
  refine ⟨?_, ?_, ?_, ?_⟩
  · intro all d hd
    rw [GoodPhase, hd] at hgp
    exact hgp
  · intro all hd
    rw [GoodPhase, hd] at hgp
    exact hgp
  · intro s2 s3 evs2 hstep
    rw [stepA] at hstep
    split at hstep
    · rw [Option.some.injEq, Prod.mk.injEq] at hstep
      rw [← hstep.1, ← hstep.2]
      exact ⟨rfl, detachSends_len s2 s2.plugins, detachSends_reqs s2 s2.plugins⟩
    · exact absurd hstep (by simp)
  · intro s2 s3 evs2 hstep
    rw [stepA] at hstep
    split at hstep
    · rw [Option.some.injEq, Prod.mk.injEq] at hstep
      rw [← hstep.1]
      exact ⟨rfl, rfl⟩
    · exact absurd hstep (by simp)

/-- Witness for C4: a full destroy cycle over one attached handle.  The
detach request (token 5) is issued and resolved before the destroy request
(token 6) is emitted; after the destroy response the registry is empty and
the keepalive timer stopped. -/
theorem destroy_awaits_detaches_witness :
    DetachReqs ["5"]
      [Ev.output { janus := "detach", transaction := some "5", session_id := some 1,
                   handle_id := some 55 },
       Ev.resolved "5" { janus := "success", transaction := some "5" },
       Ev.output { janus := "destroy", transaction := some "6", session_id := some 1 },
       Ev.resolved "6" { janus := "success", transaction := some "6" }] ∧
    (∀ t ∈ ["5"], ∃ m, Ev.resolved t m ∈
      [Ev.output { janus := "detach", transaction := some "5", session_id := some 1,
                   handle_id := some 55 },
       Ev.resolved "5" { janus := "success", transaction := some "5" },
       Ev.output { janus := "destroy", transaction := some "6", session_id := some 1 },
       Ev.resolved "6" { janus := "success", transaction := some "6" }]) ∧
    ∃ p, Ev.output p ∈
      [Ev.output { janus := "detach", transaction := some "5", session_id := some 1,
                   handle_id := some 55 },
       Ev.resolved "5" { janus := "success", transaction := some "5" },
       Ev.output { janus := "destroy", transaction := some "6", session_id := some 1 },
       Ev.resolved "6" { janus := "success", transaction := some "6" }] ∧
      p.janus = "destroy" :=
  (destroy_awaits_detaches
    { id := some 1, next_transaction_id := 4, transactions := [],
      plugins := [("55", { handleId := 55 })], keepaliveOn := true, dphase := DPhase.idle }
    [Act.destroyStart,
     Act.deliver { janus := "success", transaction := some "5" },
     Act.destroyResume,
     Act.deliver { janus := "success", transaction := some "6" },
     Act.destroyFinish]
    { id := some 1, next_transaction_id := 6, transactions := [], plugins := [],
      keepaliveOn := false, dphase := DPhase.done ["5"] }
    [Ev.output { janus := "detach", transaction := some "5", session_id := some 1,
                 handle_id := some 55 },
     Ev.resolved "5" { janus := "success", transaction := some "5" },
     Ev.output { janus := "destroy", transaction := some "6", session_id := some 1 },
     Ev.resolved "6" { janus := "success", transaction := some "6" }]
    rfl (by decide)).2.1 ["5"] rfl

/-! ### Token bookkeeping: the machinery for claims C1 and C3 -/

theorem outputsOf_append (a b : List Ev) : outputsOf (a ++ b) = outputsOf a ++ outputsOf b := by
  rw [outputsOf, outputsOf, outputsOf, List.filterMap_append]

theorem issuedToks_append (a b : List Ev) :
    issuedToks (a ++ b) = issuedToks a ++ issuedToks b := by
  rw [issuedToks, issuedToks, issuedToks, outputsOf_append, List.filterMap_append]

theorem settledToks_append (a b : List Ev) :
    settledToks (a ++ b) = settledToks a ++ settledToks b := by
  rw [settledToks, settledToks, settledToks, List.filterMap_append]

theorem issuedToks_cons_output (pl : Msg) (tk : String) (h : pl.transaction = some tk)
    (evs : List Ev) : issuedToks (Ev.output pl :: evs) = tk :: issuedToks evs := by
  simp [issuedToks, outputsOf, List.filterMap_cons, h]

theorem tokOk_mem (s : SessionState) (hTok : TokOk s) (t : String)
    (ht : t ∈ akeys s.transactions) :
    ∃ j, 1 ≤ j ∧ j ≤ s.next_transaction_id ∧ t = natToken j := by
  obtain ⟨p, hp, hpe⟩ := List.mem_map.mp ht
  obtain ⟨j, hj1, hj2, hj3⟩ := hTok p hp
  exact ⟨j, hj1, hj2, by rw [← hpe, hj3]⟩

theorem tokOk_fresh (s : SessionState) (hTok : TokOk s) (k : Nat)
    (hk : s.next_transaction_id < k) : alookup (natToken k) s.transactions = none := by
  cases hl : alookup (natToken k) s.transactions with
  | none => rfl
  | some v =>
    have hm : natToken k ∈ akeys s.transactions := by
      rw [mem_akeys_iff_alookup, hl]
      rfl
    obtain ⟨j, _, hj2, hj3⟩ := tokOk_mem s hTok (natToken k) hm
    have : k = j := natToken_injective hj3
    omega

theorem natToken_notin_range (t : String) (j : Nat) (hj : t = natToken j) (a len : Nat)
    (ha : j < a) : t ∉ (List.range' a len).map natToken := by
  intro hm
  obtain ⟨k, hk, hke⟩ := List.mem_map.mp hm
  have hjk : k = j := natToken_injective (by rw [hke, hj])
  have hak : a ≤ k := (List.mem_range'_1.mp hk).1
  omega

theorem aupsert_fresh_eq_append {α : Type} (k : String) (v : α) (l : List (String × α))
    (h : alookup k l = none) : aupsert k v l = l ++ [(k, v)] := by
  induction l with
  | nil => rfl
  | cons p rest ih =>
    obtain ⟨a, w⟩ := p
    rw [alookup] at h
    by_cases ha : a = k
    · rw [if_pos ha] at h
      simp at h
    · rw [if_neg ha] at h
      rw [aupsert, if_neg ha, ih h, List.cons_append]

theorem sendCore_effects (s : SessionState) (msg : Msg) (hTok : TokOk s) :
    (sendCore s msg).1.next_transaction_id = s.next_transaction_id + 1 ∧
    alookup ((sendCore s msg).2.1) s.transactions = none ∧
    akeys (sendCore s msg).1.transactions = akeys s.transactions ++ [(sendCore s msg).2.1] ∧
    TokOk (sendCore s msg).1 ∧
    ((akeys s.transactions).Nodup → (akeys (sendCore s msg).1.transactions).Nodup) := by
  have hfresh : alookup (natToken (s.next_transaction_id + 1)) s.transactions = none :=
    tokOk_fresh s hTok (s.next_transaction_id + 1) (by omega)
  refine ⟨rfl, hfresh, ?_, ?_, ?_⟩
  · exact akeys_aupsert_fresh _ _ _ hfresh
  · intro p hp
    rw [show (sendCore s msg).1.transactions =
        aupsert (natToken (s.next_transaction_id + 1))
          ⟨mkPayload s msg (natToken (s.next_transaction_id + 1))⟩ s.transactions from rfl] at hp
    rw [aupsert_fresh_eq_append _ _ _ hfresh] at hp
    rcases List.mem_append.mp hp with hm | hm
    · obtain ⟨j, hj1, hj2, hj3⟩ := hTok p hm
      exact ⟨j, hj1, by rw [show (sendCore s msg).1.next_transaction_id =
          s.next_transaction_id + 1 from rfl]; omega, hj3⟩
    · rw [List.mem_singleton] at hm
      subst hm
      exact ⟨s.next_transaction_id + 1, by omega, le_rfl, rfl⟩
  · intro hnd
    exact nodup_akeys_aupsert_fresh _ _ _ hnd hfresh

theorem detachSends_master (l : List (String × PluginEntry)) :
    ∀ s : SessionState, TokOk s →
      TokOk (detachSends s l).1 ∧
      ((akeys s.transactions).Nodup → (akeys (detachSends s l).1.transactions).Nodup) ∧
      (detachSends s l).1.next_transaction_id = s.next_transaction_id + l.length ∧
      issuedToks (detachSends s l).2.2 =
        (List.range' (s.next_transaction_id + 1) l.length).map natToken ∧
      akeys (detachSends s l).1.transactions =
        akeys s.transactions ++ issuedToks (detachSends s l).2.2 := by
  induction l with
  | nil =>
    intro s hTok
    refine ⟨hTok, fun hn => hn, rfl, rfl, ?_⟩
    rw [show issuedToks (detachSends s []).2.2 = [] from rfl, List.append_nil]
    rfl
  | cons p rest ih =>
    intro s hTok
    obtain ⟨pid, pe⟩ := p
    obtain ⟨he1, he2, he3, he4, he5⟩ :=
      sendCore_effects s { janus := "detach", handle_id := some pe.handleId } hTok
    obtain ⟨ih1, ih2, ih3, ih4, ih5⟩ :=
      ih (sendCore s { janus := "detach", handle_id := some pe.handleId }).1 he4
    have hiss : issuedToks (detachSends s ((pid, pe) :: rest)).2.2 =
        (sendCore s { janus := "detach", handle_id := some pe.handleId }).2.1 ::
        issuedToks
          (detachSends (sendCore s { janus := "detach", handle_id := some pe.handleId }).1
            rest).2.2 :=
      issuedToks_cons_output _ _
        (by rw [sendCore_payload, mkPayload_transaction, sendCore_tok]) _
    refine ⟨ih1, fun hnd => ih2 (he5 hnd), ?_, ?_, ?_⟩
    · show (detachSends
          (sendCore s { janus := "detach", handle_id := some pe.handleId }).1
          rest).1.next_transaction_id = s.next_transaction_id + ((pid, pe) :: rest).length
      rw [ih3, he1, List.length_cons]
      omega
    · rw [hiss, ih4, he1]
      rw [sendCore_tok]
      rw [List.length_cons]
      rw [List.range'_succ]
      rfl
    · show akeys (detachSends
          (sendCore s { janus := "detach", handle_id := some pe.handleId }).1
          rest).1.transactions =
        akeys s.transactions ++ issuedToks (detachSends s ((pid, pe) :: rest)).2.2
      rw [hiss]
      rw [ih5, he3]
      rw [List.append_assoc, List.singleton_append]

theorem mem_of_mem_aremove {α : Type} (k : String) (l : List (String × α)) :
    ∀ p ∈ aremove k l, p ∈ l := by
  induction l with
  | nil =>
    intro p hp
    simp [aremove] at hp
  | cons q rest ih =>
    intro p hp
    obtain ⟨a, w⟩ := q
    by_cases ha : a = k
    · rw [aremove, if_pos ha] at hp
      exact List.mem_cons_of_mem _ (ih p hp)
    · rw [aremove, if_neg ha] at hp
      rcases List.mem_cons.mp hp with hm | hm
      · exact hm ▸ List.mem_cons_self _ _
      · exact List.mem_cons_of_mem _ (ih p hm)

theorem settledToks_nil_of_outputs (evs : List Ev)
    (h : ∀ e ∈ evs, ∃ m, e = Ev.output m) : settledToks evs = [] := by
  induction evs with
  | nil => rfl
  | cons e rest ih =>
    obtain ⟨m, hm⟩ := h e (List.mem_cons_self _ _)
    subst hm
    rw [show settledToks (Ev.output m :: rest) = settledToks rest from rfl]
    exact ih fun e2 he2 => h e2 (List.mem_cons_of_mem _ he2)

theorem issuedToks_nil_of_outputs_free (evs : List Ev)
    (h : ∀ e ∈ evs, ∀ m : Msg, e ≠ Ev.output m) : issuedToks evs = [] := by
  induction evs with
  | nil => rfl
  | cons e rest ih =>
    have hrest := ih fun e2 he2 => h e2 (List.mem_cons_of_mem _ he2)
    cases e with
    | output m => exact absurd rfl (h (Ev.output m) (List.mem_cons_self _ _) m)
    | resolved t m => exact hrest
    | rejectedRemote t m => exact hrest
    | rejectedTimeout t => exact hrest
    | forwarded p m => exact hrest
    | raised r => exact hrest
    | keepaliveNotified => exact hrest

theorem stepA_master (s : SessionState) (a : Act) (s1 : SessionState) (evs : List Ev)
    (h : stepA s a = some (s1, evs)) (hTok : TokOk s) (hnd : (akeys s.transactions).Nodup) :
    TokOk s1 ∧
    (akeys s1.transactions).Nodup ∧
    s.next_transaction_id ≤ s1.next_transaction_id ∧
    issuedToks evs = (List.range' (s.next_transaction_id + 1)
      (s1.next_transaction_id - s.next_transaction_id)).map natToken ∧
    (∀ t ∈ akeys s1.transactions, t ∈ akeys s.transactions ∨ t ∈ issuedToks evs) ∧
    (∀ t ∈ settledToks evs, t ∈ akeys s.transactions ∧ t ∉ akeys s1.transactions) ∧
    ((∀ msg, a = Act.deliver msg → msg.janus = "error" → msg.error ≠ none) →
      ∀ t ∈ akeys s.transactions, t ∈ settledToks evs ∨ t ∈ akeys s1.transactions) ∧
    (settledToks evs).Nodup ∧
    (∀ t ∈ issuedToks evs, t ∈ akeys s1.transactions) ∧
    (∀ t m, Ev.resolved t m ∈ evs → m.transaction = some t) ∧
    (∀ t m, Ev.rejectedRemote t m ∈ evs → m.transaction = some t) := by
  cases a with
  | send msg =>
    rw [stepA] at h
    cases h
    obtain ⟨he1, he2, he3, he4, he5⟩ := sendCore_effects s msg hTok
    have hiss : issuedToks [Ev.output (sendCore s msg).2.2] = [(sendCore s msg).2.1] :=
      issuedToks_cons_output _ _
        (by rw [sendCore_payload, mkPayload_transaction, sendCore_tok]) []
    have hst : settledToks [Ev.output (sendCore s msg).2.2] = [] := rfl
    refine ⟨he4, he5 hnd, by rw [he1]; omega, ?_, ?_, ?_, ?_, ?_, ?_, ?_, ?_⟩
    · rw [hiss, he1, Nat.add_sub_cancel_left, List.range'_one, List.map_cons, List.map_nil]
      rw [sendCore_tok]
    · intro t ht
      rw [he3] at ht
      rcases List.mem_append.mp ht with hm | hm
      · exact Or.inl hm
      · rw [hiss]
        exact Or.inr hm
    · intro t ht
      rw [hst] at ht
      simp at ht
    · intro _ t ht
      refine Or.inr ?_
      rw [he3]
      exact List.mem_append.mpr (Or.inl ht)
    · rw [hst]
      exact List.nodup_nil
    · intro t ht
      rw [hiss] at ht
      rw [he3]
      exact List.mem_append.mpr (Or.inr ht)
    · intro t m hm
      rw [List.mem_singleton] at hm
      exact Ev.noConfusion hm
    · intro t m hm
      rw [List.mem_singleton] at hm
      exact Ev.noConfusion hm
  | fireKeepalive =>
    rw [stepA] at h
    split at h
    · cases h
      obtain ⟨he1, he2, he3, he4, he5⟩ := sendCore_effects s { janus := "keepalive" } hTok
      have hiss : issuedToks [Ev.output (sendCore s { janus := "keepalive" }).2.2] =
          [(sendCore s { janus := "keepalive" }).2.1] :=
        issuedToks_cons_output _ _
          (by rw [sendCore_payload, mkPayload_transaction, sendCore_tok]) []
      have hst : settledToks [Ev.output (sendCore s { janus := "keepalive" }).2.2] = [] := rfl
      refine ⟨he4, he5 hnd, by rw [he1]; omega, ?_, ?_, ?_, ?_, ?_, ?_, ?_, ?_⟩
      · rw [hiss, he1, Nat.add_sub_cancel_left, List.range'_one, List.map_cons, List.map_nil]
        rw [sendCore_tok]
      · intro t ht
        rw [he3] at ht
        rcases List.mem_append.mp ht with hm | hm
        · exact Or.inl hm
        · rw [hiss]
          exact Or.inr hm
      · intro t ht
        rw [hst] at ht
        simp at ht
      · intro _ t ht
        refine Or.inr ?_
        rw [he3]
        exact List.mem_append.mpr (Or.inl ht)
      · rw [hst]
        exact List.nodup_nil
      · intro t ht
        rw [hiss] at ht
        rw [he3]
        exact List.mem_append.mpr (Or.inr ht)
      · intro t m hm
        rw [List.mem_singleton] at hm
        exact Ev.noConfusion hm
      · intro t m hm
        rw [List.mem_singleton] at hm
        exact Ev.noConfusion hm
    · exact absurd h (by simp)
  | deliver msg =>
    rw [stepA] at h
    cases h
    rcases receiveCore_cases s msg with ⟨hs, hsh⟩ | ⟨t, htr, ⟨txn, hlk⟩, hstate, hsh⟩
    · have hks : akeys (receiveCore s msg).1.transactions = akeys s.transactions := by
        rw [hs]
      have hnx : (receiveCore s msg).1.next_transaction_id = s.next_transaction_id := by
        rw [hs]
      have hiss : issuedToks (receiveCore s msg).2 = [] := by
        refine issuedToks_nil_of_outputs_free _ ?_
        rcases hsh with hsh | ⟨pid, hsh⟩ | ⟨r, hsh⟩ <;> rw [hsh]
        · intro e he
          simp at he
        · intro e he m
          rw [List.mem_singleton] at he
          subst he
          exact fun hh => Ev.noConfusion hh
        · intro e he m
          rw [List.mem_singleton] at he
          subst he
          exact fun hh => Ev.noConfusion hh
      have hst : settledToks (receiveCore s msg).2 = [] := by
        rcases hsh with hsh | ⟨pid, hsh⟩ | ⟨r, hsh⟩ <;> rw [hsh] <;> rfl
      refine ⟨?_, ?_, ?_, ?_, ?_, ?_, ?_, ?_, ?_, ?_, ?_⟩
      · intro p hp
        rw [show ({ (receiveCore s msg).1 with
            dphase := updatePhase (receiveCore s msg).1.dphase
              (receiveCore s msg).2 } : SessionState).transactions =
            (receiveCore s msg).1.transactions from rfl] at hp
        rw [hs] at hp
        obtain ⟨j, hj1, hj2, hj3⟩ := hTok p hp
        exact ⟨j, hj1, by rw [show ({ (receiveCore s msg).1 with
            dphase := updatePhase (receiveCore s msg).1.dphase
              (receiveCore s msg).2 } : SessionState).next_transaction_id =
            (receiveCore s msg).1.next_transaction_id from rfl, hnx]; exact hj2, hj3⟩
      · rw [show akeys ({ (receiveCore s msg).1 with
            dphase := updatePhase (receiveCore s msg).1.dphase
              (receiveCore s msg).2 } : SessionState).transactions =
            akeys (receiveCore s msg).1.transactions from rfl, hks]
        exact hnd
      · rw [show ({ (receiveCore s msg).1 with
            dphase := updatePhase (receiveCore s msg).1.dphase
              (receiveCore s msg).2 } : SessionState).next_transaction_id =
            (receiveCore s msg).1.next_transaction_id from rfl, hnx]
      · rw [hiss]
        rw [show ({ (receiveCore s msg).1 with
            dphase := updatePhase (receiveCore s msg).1.dphase
              (receiveCore s msg).2 } : SessionState).next_transaction_id =
            (receiveCore s msg).1.next_transaction_id from rfl, hnx]
        rw [Nat.sub_self]
        rfl
      · intro t2 ht2
        rw [show akeys ({ (receiveCore s msg).1 with
            dphase := updatePhase (receiveCore s msg).1.dphase
              (receiveCore s msg).2 } : SessionState).transactions =
            akeys (receiveCore s msg).1.transactions from rfl, hks] at ht2
        exact Or.inl ht2
      · intro t2 ht2
        rw [hst] at ht2
        simp at ht2
      · intro _ t2 ht2
        refine Or.inr ?_
        rw [show akeys ({ (receiveCore s msg).1 with
            dphase := updatePhase (receiveCore s msg).1.dphase
              (receiveCore s msg).2 } : SessionState).transactions =
            akeys (receiveCore s msg).1.transactions from rfl, hks]
        exact ht2
      · rw [hst]
        exact List.nodup_nil
      · intro t2 ht2
        rw [hiss] at ht2
        simp at ht2
      · intro t2 m hm
        rcases hsh with hsh | ⟨pid, hsh⟩ | ⟨r, hsh⟩ <;> rw [hsh] at hm
        · simp at hm
        · rw [List.mem_singleton] at hm
          exact Ev.noConfusion hm
        · rw [List.mem_singleton] at hm
          exact Ev.noConfusion hm
      · intro t2 m hm
        rcases hsh with hsh | ⟨pid, hsh⟩ | ⟨r, hsh⟩ <;> rw [hsh] at hm
        · simp at hm
        · rw [List.mem_singleton] at hm
          exact Ev.noConfusion hm
        · rw [List.mem_singleton] at hm
          exact Ev.noConfusion hm
    · have htks : t ∈ akeys s.transactions := by
        rw [mem_akeys_iff_alookup, hlk]
        rfl
      have hks : akeys (receiveCore s msg).1.transactions =
          akeys (aremove t s.transactions) := by
        rw [hstate]
      have hnx : (receiveCore s msg).1.next_transaction_id = s.next_transaction_id := by
        rw [hstate]
      have hiss : issuedToks (receiveCore s msg).2 = [] := by
        refine issuedToks_nil_of_outputs_free _ ?_
        rcases hsh with hsh | hsh | ⟨⟨r, hsh⟩, _, _⟩ <;> rw [hsh]
        all_goals
          intro e he m
          rw [List.mem_singleton] at he
          subst he
          exact fun hh => Ev.noConfusion hh
      have hstl : settledToks (receiveCore s msg).2 = [t] ∨
          settledToks (receiveCore s msg).2 = [] := by
        rcases hsh with hsh | hsh | ⟨⟨r, hsh⟩, _, _⟩ <;> rw [hsh]
        · exact Or.inl rfl
        · exact Or.inl rfl
        · exact Or.inr rfl
      refine ⟨?_, ?_, ?_, ?_, ?_, ?_, ?_, ?_, ?_, ?_, ?_⟩
      · intro p hp
        rw [show ({ (receiveCore s msg).1 with
            dphase := updatePhase (receiveCore s msg).1.dphase
              (receiveCore s msg).2 } : SessionState).transactions =
            (receiveCore s msg).1.transactions from rfl, hstate] at hp
        have hp2 : p ∈ s.transactions := mem_of_mem_aremove t s.transactions p hp
        obtain ⟨j, hj1, hj2, hj3⟩ := hTok p hp2
        exact ⟨j, hj1, by rw [show ({ (receiveCore s msg).1 with
            dphase := updatePhase (receiveCore s msg).1.dphase
              (receiveCore s msg).2 } : SessionState).next_transaction_id =
            (receiveCore s msg).1.next_transaction_id from rfl, hnx]; exact hj2, hj3⟩
      · rw [show akeys ({ (receiveCore s msg).1 with
            dphase := updatePhase (receiveCore s msg).1.dphase
              (receiveCore s msg).2 } : SessionState).transactions =
            akeys (receiveCore s msg).1.transactions from rfl, hks]
        exact nodup_akeys_aremove t s.transactions hnd
      · rw [show ({ (receiveCore s msg).1 with
            dphase := updatePhase (receiveCore s msg).1.dphase
              (receiveCore s msg).2 } : SessionState).next_transaction_id =
            (receiveCore s msg).1.next_transaction_id from rfl, hnx]
      · rw [hiss]
        rw [show ({ (receiveCore s msg).1 with
            dphase := updatePhase (receiveCore s msg).1.dphase
              (receiveCore s msg).2 } : SessionState).next_transaction_id =
            (receiveCore s msg).1.next_transaction_id from rfl, hnx]
        rw [Nat.sub_self]
        rfl
      · intro t2 ht2
        rw [show akeys ({ (receiveCore s msg).1 with
            dphase := updatePhase (receiveCore s msg).1.dphase
              (receiveCore s msg).2 } : SessionState).transactions =
            akeys (receiveCore s msg).1.transactions from rfl, hks] at ht2
        exact Or.inl ((mem_akeys_aremove t2 t s.transactions).mp ht2).1
      · intro t2 ht2
        rcases hstl with hstl | hstl
        · rw [hstl, List.mem_singleton] at ht2
          subst ht2
          constructor
          · exact htks
          · intro hmem
            rw [show akeys ({ (receiveCore s msg).1 with
                dphase := updatePhase (receiveCore s msg).1.dphase
                  (receiveCore s msg).2 } : SessionState).transactions =
                akeys (receiveCore s msg).1.transactions from rfl, hks] at hmem
            exact ((mem_akeys_aremove t2 t2 s.transactions).mp hmem).2 rfl
        · rw [hstl] at ht2
          simp at ht2
      · intro hwf t2 ht2
        by_cases ht2t : t2 = t
        · subst ht2t
          rcases hsh with hsh | hsh | ⟨⟨r, hsh⟩, hje, hee⟩
          · refine Or.inl ?_
            rw [hsh]
            show t2 ∈ [t2]
            exact List.mem_singleton.mpr rfl
          · refine Or.inl ?_
            rw [hsh]
            show t2 ∈ [t2]
            exact List.mem_singleton.mpr rfl
          · exact absurd hee (hwf msg rfl hje)
        · refine Or.inr ?_
          rw [show akeys ({ (receiveCore s msg).1 with
              dphase := updatePhase (receiveCore s msg).1.dphase
                (receiveCore s msg).2 } : SessionState).transactions =
              akeys (receiveCore s msg).1.transactions from rfl, hks]
          exact (mem_akeys_aremove t2 t s.transactions).mpr ⟨ht2, ht2t⟩
      · rcases hstl with hstl | hstl <;> rw [hstl]
        · exact List.nodup_singleton t
        · exact List.nodup_nil
      · intro t2 ht2
        rw [hiss] at ht2
        simp at ht2
      · intro t2 m hm
        rcases hsh with hsh | hsh | ⟨⟨r, hsh⟩, _, _⟩ <;> rw [hsh] at hm <;>
          rw [List.mem_singleton] at hm
        · have h1 : t2 = t := by
            injection hm with h1 h2
          have h2 : m = msg := by
            injection hm with h1 h2
          rw [h2, h1]
          exact htr
        · exact Ev.noConfusion hm
        · exact Ev.noConfusion hm
      · intro t2 m hm
        rcases hsh with hsh | hsh | ⟨⟨r, hsh⟩, _, _⟩ <;> rw [hsh] at hm <;>
          rw [List.mem_singleton] at hm
        · exact Ev.noConfusion hm
        · have h1 : t2 = t := by
            injection hm with h1 h2
          have h2 : m = msg := by
            injection hm with h1 h2
          rw [h2, h1]
          exact htr
        · exact Ev.noConfusion hm
  | fireTimeout t =>
    rw [stepA] at h
    split at h
    next txn hlk =>
      cases h
      have htks : t ∈ akeys s.transactions := by
        rw [mem_akeys_iff_alookup, hlk]
        rfl
      have hst : settledToks [Ev.rejectedTimeout t] = [t] := rfl
      have hiss : issuedToks [Ev.rejectedTimeout t] = [] := rfl
      refine ⟨?_, ?_, le_rfl, ?_, ?_, ?_, ?_, ?_, ?_, ?_, ?_⟩
      · intro p hp
        have hp2 : p ∈ s.transactions := mem_of_mem_aremove t s.transactions p hp
        exact hTok p hp2
      · exact nodup_akeys_aremove t s.transactions hnd
      · rw [hiss, Nat.sub_self]
        rfl
      · intro t2 ht2
        exact Or.inl ((mem_akeys_aremove t2 t s.transactions).mp ht2).1
      · intro t2 ht2
        rw [hst, List.mem_singleton] at ht2
        subst ht2
        refine ⟨htks, ?_⟩
        intro hmem
        exact ((mem_akeys_aremove t2 t2 s.transactions).mp hmem).2 rfl
      · intro _ t2 ht2
        by_cases ht2t : t2 = t
        · subst ht2t
          exact Or.inl (by rw [hst]; exact List.mem_singleton.mpr rfl)
        · exact Or.inr ((mem_akeys_aremove t2 t s.transactions).mpr ⟨ht2, ht2t⟩)
      · rw [hst]
        exact List.nodup_singleton t
      · intro t2 ht2
        rw [hiss] at ht2
        simp at ht2
      · intro t2 m hm
        rw [List.mem_singleton] at hm
        exact Ev.noConfusion hm
      · intro t2 m hm
        rw [List.mem_singleton] at hm
        exact Ev.noConfusion hm
    next hlk =>
      exact absurd h (by simp)
  | destroyStart =>
    rw [stepA] at h
    split at h
    · cases h
      obtain ⟨dm1, dm2, dm3, dm4, dm5⟩ := detachSends_master s.plugins s hTok
      have hout := detachSends_outputs s s.plugins
      have hst : settledToks (detachSends s s.plugins).2.2 = [] :=
        settledToks_nil_of_outputs _ hout
      refine ⟨dm1, dm2 hnd, by rw [dm3]; omega, ?_, ?_, ?_, ?_, ?_, ?_, ?_, ?_⟩
      · rw [dm4, dm3, Nat.add_sub_cancel_left]
      · intro t2 ht2
        rw [show akeys ({ (detachSends s s.plugins).1 with
            dphase := DPhase.waitingDetaches (detachSends s s.plugins).2.1
              (detachSends s s.plugins).2.1 } : SessionState).transactions =
            akeys (detachSends s s.plugins).1.transactions from rfl, dm5] at ht2
        exact List.mem_append.mp ht2
      · intro t2 ht2
        rw [hst] at ht2
        simp at ht2
      · intro _ t2 ht2
        refine Or.inr ?_
        rw [show akeys ({ (detachSends s s.plugins).1 with
            dphase := DPhase.waitingDetaches (detachSends s s.plugins).2.1
              (detachSends s s.plugins).2.1 } : SessionState).transactions =
            akeys (detachSends s s.plugins).1.transactions from rfl, dm5]
        exact List.mem_append.mpr (Or.inl ht2)
      · rw [hst]
        exact List.nodup_nil
      · intro t2 ht2
        rw [show akeys ({ (detachSends s s.plugins).1 with
            dphase := DPhase.waitingDetaches (detachSends s s.plugins).2.1
              (detachSends s s.plugins).2.1 } : SessionState).transactions =
            akeys (detachSends s s.plugins).1.transactions from rfl, dm5]
        exact List.mem_append.mpr (Or.inr ht2)
      · intro t2 m hm
        obtain ⟨m2, hm2⟩ := hout _ hm
        exact Ev.noConfusion hm2
      · intro t2 m hm
        obtain ⟨m2, hm2⟩ := hout _ hm
        exact Ev.noConfusion hm2
    · exact absurd h (by simp)
  | destroyResume =>
    rw [stepA] at h
    split at h
    next all heq =>
      cases h
      obtain ⟨he1, he2, he3, he4, he5⟩ := sendCore_effects s { janus := "destroy" } hTok
      have hiss : issuedToks [Ev.output (sendCore s { janus := "destroy" }).2.2] =
          [(sendCore s { janus := "destroy" }).2.1] :=
        issuedToks_cons_output _ _
          (by rw [sendCore_payload, mkPayload_transaction, sendCore_tok]) []
      have hst : settledToks [Ev.output (sendCore s { janus := "destroy" }).2.2] = [] := rfl
      refine ⟨he4, he5 hnd, by rw [show ({ (sendCore s { janus := "destroy" }).1 with
          dphase := DPhase.waitingDestroy all
            (sendCore s { janus := "destroy" }).2.1 } : SessionState).next_transaction_id =
          (sendCore s { janus := "destroy" }).1.next_transaction_id from rfl, he1]; omega,
        ?_, ?_, ?_, ?_, ?_, ?_, ?_, ?_⟩
      · rw [hiss, show ({ (sendCore s { janus := "destroy" }).1 with
            dphase := DPhase.waitingDestroy all
              (sendCore s { janus := "destroy" }).2.1 } : SessionState).next_transaction_id =
            (sendCore s { janus := "destroy" }).1.next_transaction_id from rfl, he1,
          Nat.add_sub_cancel_left, List.range'_one, List.map_cons, List.map_nil]
        rw [sendCore_tok]
      · intro t ht
        rw [show akeys ({ (sendCore s { janus := "destroy" }).1 with
            dphase := DPhase.waitingDestroy all
              (sendCore s { janus := "destroy" }).2.1 } : SessionState).transactions =
            akeys (sendCore s { janus := "destroy" }).1.transactions from rfl, he3] at ht
        rcases List.mem_append.mp ht with hm | hm
        · exact Or.inl hm
        · rw [hiss]
          exact Or.inr hm
      · intro t ht
        rw [hst] at ht
        simp at ht
      · intro _ t ht
        refine Or.inr ?_
        rw [show akeys ({ (sendCore s { janus := "destroy" }).1 with
            dphase := DPhase.waitingDestroy all
              (sendCore s { janus := "destroy" }).2.1 } : SessionState).transactions =
            akeys (sendCore s { janus := "destroy" }).1.transactions from rfl, he3]
        exact List.mem_append.mpr (Or.inl ht)
      · rw [hst]
        exact List.nodup_nil
      · intro t ht
        rw [hiss] at ht
        rw [show akeys ({ (sendCore s { janus := "destroy" }).1 with
            dphase := DPhase.waitingDestroy all
              (sendCore s { janus := "destroy" }).2.1 } : SessionState).transactions =
            akeys (sendCore s { janus := "destroy" }).1.transactions from rfl, he3]
        exact List.mem_append.mpr (Or.inr ht)
      · intro t m hm
        rw [List.mem_singleton] at hm
        exact Ev.noConfusion hm
      · intro t m hm
        rw [List.mem_singleton] at hm
        exact Ev.noConfusion hm
    next hne =>
      exact absurd h (by simp)
  | destroyFinish =>
    rw [stepA] at h
    split at h
    next all heq =>
      cases h
      refine ⟨hTok, hnd, le_rfl, ?_, ?_, ?_, ?_, List.nodup_nil, ?_, ?_, ?_⟩
      · show issuedToks [] = (List.range' (s.next_transaction_id + 1)
          (s.next_transaction_id - s.next_transaction_id)).map natToken
        rw [Nat.sub_self]
        rfl
      · intro t ht
        exact Or.inl ht
      · intro t ht
        simp [settledToks] at ht
      · intro _ t ht
        exact Or.inr ht
      · intro t ht
        simp [issuedToks, outputsOf] at ht
      · intro t m hm
        simp at hm
      · intro t m hm
        simp at hm
    next hne =>
      exact absurd h (by simp)

theorem run_master (acts : List Act) :
    ∀ (s s1 : SessionState) (tr : List Ev),
      run s acts = some (s1, tr) → TokOk s → (akeys s.transactions).Nodup →
      TokOk s1 ∧
      (akeys s1.transactions).Nodup ∧
      s.next_transaction_id ≤ s1.next_transaction_id ∧
      issuedToks tr = (List.range' (s.next_transaction_id + 1)
        (s1.next_transaction_id - s.next_transaction_id)).map natToken ∧
      (∀ t ∈ akeys s1.transactions, t ∈ akeys s.transactions ∨ t ∈ issuedToks tr) ∧
      (∀ t ∈ settledToks tr,
        (t ∈ akeys s.transactions ∨ t ∈ issuedToks tr) ∧ t ∉ akeys s1.transactions) ∧
      (WFActs acts →
        ∀ t ∈ akeys s.transactions, t ∈ settledToks tr ∨ t ∈ akeys s1.transactions) ∧
      (WFActs acts →
        ∀ t ∈ issuedToks tr, t ∈ settledToks tr ∨ t ∈ akeys s1.transactions) ∧
      (settledToks tr).Nodup ∧
      (∀ t m, Ev.resolved t m ∈ tr → m.transaction = some t) ∧
      (∀ t m, Ev.rejectedRemote t m ∈ tr → m.transaction = some t) := by
  induction acts with
  | nil =>
    intro s s1 tr h hTok hnd
    rw [run, Option.some.injEq, Prod.mk.injEq] at h
    obtain ⟨h1, h2⟩ := h
    subst h1
    subst h2
    refine ⟨hTok, hnd, le_rfl, ?_, ?_, ?_, ?_, ?_, List.nodup_nil, ?_, ?_⟩
    · rw [Nat.sub_self]
      rfl
    · intro t ht
      exact Or.inl ht
    · intro t ht
      simp [settledToks] at ht
    · intro _ t ht
      exact Or.inr ht
    · intro _ t ht
      simp [issuedToks, outputsOf] at ht
    · intro t m hm
      simp at hm
    · intro t m hm
      simp at hm
  | cons a rest ih =>
    intro s s1 tr h hTok hnd
    obtain ⟨s2, evs, tr2, hstep, hrun, rfl⟩ := run_cons_some s a rest s1 tr h
    obtain ⟨S1, S2, S3, S4, S5, S6, S7, S8, S9, S10, S11⟩ :=
      stepA_master s a s2 evs hstep hTok hnd
    obtain ⟨I1, I2, I3, I4, I5, I6, I7, I8, I9, I10, I11⟩ := ih s2 s1 tr2 hrun S1 S2
    have hIA : issuedToks (evs ++ tr2) = issuedToks evs ++ issuedToks tr2 :=
      issuedToks_append evs tr2
    have hSA : settledToks (evs ++ tr2) = settledToks evs ++ settledToks tr2 :=
      settledToks_append evs tr2
    have hboundS : ∀ t ∈ akeys s.transactions, t ∉ issuedToks tr2 := by
      intro t ht
      obtain ⟨j, _, hj2, hj3⟩ := tokOk_mem s hTok t ht
      rw [I4]
      exact natToken_notin_range t j hj3 (s2.next_transaction_id + 1) _ (by omega)
    have hboundE : ∀ t ∈ issuedToks evs, t ∉ issuedToks tr2 := by
      intro t ht
      rw [S4] at ht
      obtain ⟨k, hk, hke⟩ := List.mem_map.mp ht
      obtain ⟨hk1, hk2⟩ := List.mem_range'_1.mp hk
      rw [I4]
      exact natToken_notin_range t k hke.symm (s2.next_transaction_id + 1) _ (by omega)
    refine ⟨I1, I2, le_trans S3 I3, ?_, ?_, ?_, ?_, ?_, ?_, ?_, ?_⟩
    · rw [hIA, S4, I4]
      have harith1 : s2.next_transaction_id + 1 =
          s.next_transaction_id + 1 + (s2.next_transaction_id - s.next_transaction_id) := by
        omega
      have harith2 : s1.next_transaction_id - s.next_transaction_id =
          (s2.next_transaction_id - s.next_transaction_id) +
          (s1.next_transaction_id - s2.next_transaction_id) := by
        omega
      rw [harith1, ← List.map_append, List.range'_append_1, harith2]
      rw [Nat.add_comm (s1.next_transaction_id - s2.next_transaction_id)
        (s2.next_transaction_id - s.next_transaction_id)]
    · intro t ht
      rcases I5 t ht with hm | hm
      · rcases S5 t hm with hm2 | hm2
        · exact Or.inl hm2
        · refine Or.inr ?_
          rw [hIA]
          exact List.mem_append.mpr (Or.inl hm2)
      · refine Or.inr ?_
        rw [hIA]
        exact List.mem_append.mpr (Or.inr hm)
    · intro t ht
      rw [hSA] at ht
      rcases List.mem_append.mp ht with hm | hm
      · obtain ⟨hm1, hm2⟩ := S6 t hm
        refine ⟨Or.inl hm1, ?_⟩
        intro hmem
        rcases I5 t hmem with hc | hc
        · exact hm2 hc
        · exact hboundS t hm1 hc
      · obtain ⟨hm1, hm2⟩ := I6 t hm
        refine ⟨?_, hm2⟩
        rcases hm1 with hc | hc
        · rcases S5 t hc with hc2 | hc2
          · exact Or.inl hc2
          · refine Or.inr ?_
            rw [hIA]
            exact List.mem_append.mpr (Or.inl hc2)
        · refine Or.inr ?_
          rw [hIA]
          exact List.mem_append.mpr (Or.inr hc)
    · intro hwf t ht
      have hwfrest : WFActs rest := fun m hm he => hwf m (List.mem_cons_of_mem _ hm) he
      have hwfstep : ∀ msg, a = Act.deliver msg → msg.janus = "error" → msg.error ≠ none := by
        intro m ha he
        refine hwf m ?_ he
        rw [← ha]
        exact List.mem_cons_self _ _
      rcases S7 hwfstep t ht with hm | hm
      · refine Or.inl ?_
        rw [hSA]
        exact List.mem_append.mpr (Or.inl hm)
      · rcases I7 hwfrest t hm with hm2 | hm2
        · refine Or.inl ?_
          rw [hSA]
          exact List.mem_append.mpr (Or.inr hm2)
        · exact Or.inr hm2
    · intro hwf t ht
      have hwfrest : WFActs rest := fun m hm he => hwf m (List.mem_cons_of_mem _ hm) he
      rw [hIA] at ht
      rcases List.mem_append.mp ht with hm | hm
      · have hm2 : t ∈ akeys s2.transactions := S9 t hm
        rcases I7 hwfrest t hm2 with hc | hc
        · refine Or.inl ?_
          rw [hSA]
          exact List.mem_append.mpr (Or.inr hc)
        · exact Or.inr hc
      · rcases I8 hwfrest t hm with hc | hc
        · refine Or.inl ?_
          rw [hSA]
          exact List.mem_append.mpr (Or.inr hc)
        · exact Or.inr hc
    · rw [hSA]
      rw [List.nodup_append]
      refine ⟨S8, I9, ?_⟩
      intro t ht htm
      obtain ⟨hm1, hm2⟩ := S6 t ht
      obtain ⟨hc1, _⟩ := I6 t htm
      rcases hc1 with hc | hc
      · exact hm2 hc
      · exact hboundS t hm1 hc
    · intro t m hm
      rcases List.mem_append.mp hm with hc | hc
      · exact S10 t m hc
      · exact I10 t m hc
    · intro t m hm
      rcases List.mem_append.mp hm with hc | hc
      · exact S11 t m hc
      · exact I11 t m hc

theorem initialState_tokOk : TokOk initialState := by
  intro p hp
  simp [initialState] at hp

theorem initialState_nodup : (akeys initialState.transactions).Nodup := by
  simp [initialState, akeys]

/-! ### Claim C1: settlement happens exactly once, correctly correlated -/

/-- Claim C1: over any schedule of sends, deliveries and timeout firings from
a fresh session (deliveries protocol-well-formed), every pending-transaction
entry is settled (and removed) at most once — a settlement is a correlated
response or the timeout of that token, never both, since settlement tokens
are pairwise distinct; every settlement belongs to an issued envelope, and a
resolved or rejected settlement of token `t` carries exactly the message
whose correlation token is `t`, never another.  When the run is complete
(the transaction table drained), every issued token was settled exactly
once. -/
theorem send_settles_exactly_once_correlated (acts : List Act) (s1 : SessionState)
    (tr : List Ev) (hwf : WFActs acts) (h : run initialState acts = some (s1, tr)) :
    (settledToks tr).Nodup ∧
    (∀ t ∈ settledToks tr, t ∈ issuedToks tr) ∧
    (∀ t m, Ev.resolved t m ∈ tr → m.transaction = some t) ∧
    (∀ t m, Ev.rejectedRemote t m ∈ tr → m.transaction = some t) ∧
    (akeys s1.transactions = [] →
      ∀ t ∈ issuedToks tr, (settledToks tr).count t = 1) := by
  obtain ⟨M1, M2, M3, M4, M5, M6, M7, M8, M9, M10, M11⟩ :=
    run_master acts initialState s1 tr h initialState_tokOk initialState_nodup
  refine ⟨M9, ?_, M10, M11, ?_⟩
  · intro t ht
    rcases (M6 t ht).1 with hc | hc
    · simp [initialState, akeys] at hc
    · exact hc
  · intro hempty t ht
    have hs : t ∈ settledToks tr := by
      rcases M8 hwf t ht with hc | hc
      · exact hc
      · rw [hempty] at hc
        simp at hc
    exact List.count_eq_one_of_mem M9 hs

/-- Witness for C1: one send and one correlated successful response. -/
theorem send_settles_exactly_once_correlated_witness :
    (settledToks
      [Ev.output { janus := "create", transaction := some "1" },
       Ev.resolved "1" { janus := "success", transaction := some "1",
                         dataId := some 7 }]).Nodup ∧
    (settledToks
      [Ev.output { janus := "create", transaction := some "1" },
       Ev.resolved "1" { janus := "success", transaction := some "1",
                         dataId := some 7 }]).count "1" = 1 := by
  have h := send_settles_exactly_once_correlated
    [Act.send { janus := "create" },
     Act.deliver { janus := "success", transaction := some "1", dataId := some 7 }]
    { next_transaction_id := 1, transactions := [], keepaliveOn := true }
    [Ev.output { janus := "create", transaction := some "1" },
     Ev.resolved "1" { janus := "success", transaction := some "1", dataId := some 7 }]
    (by
      intro m hm he
      simp at hm
      rw [hm] at he
      simp at he)
    (by decide)
  exact ⟨h.1, h.2.2.2.2 (by decide) "1" (by decide)⟩

/-! ### Claim C3: token freshness and uniqueness -/

/-- Claim C3: from a fresh session, the tokens of all envelopes emitted during
any schedule are pairwise distinct (a token is never issued twice in the
lifetime of the session: they are successive values of the monotonically
increasing counter, stringified), and from any reachable state the next
`send` stringifies the incremented counter into a token that is absent from
the pending-transaction table and carried by the outgoing envelope. -/
theorem tokens_unique_and_fresh (acts : List Act) (s1 : SessionState) (tr : List Ev)
    (h : run initialState acts = some (s1, tr)) :
    (issuedToks tr).Nodup ∧
    ∀ msg : Msg,
      (sendCore s1 msg).2.1 = natToken (s1.next_transaction_id + 1) ∧
      alookup ((sendCore s1 msg).2.1) s1.transactions = none ∧
      (sendCore s1 msg).2.2.transaction = some ((sendCore s1 msg).2.1) := by
  obtain ⟨M1, M2, M3, M4, M5, M6, M7, M8, M9, M10, M11⟩ :=
    run_master acts initialState s1 tr h initialState_tokOk initialState_nodup
  constructor
  · rw [M4]
    refine List.Nodup.map natToken_injective ?_
    exact List.nodup_range' _ _
  · intro msg
    refine ⟨sendCore_tok s1 msg, ?_, ?_⟩
    · rw [sendCore_tok]
      exact tokOk_fresh s1 M1 (s1.next_transaction_id + 1) (by omega)
    · rw [sendCore_payload, mkPayload_transaction, sendCore_tok]

/-- Witness for C3: two sends from a fresh session issue distinct tokens, and
a further send from the reached state is fresh with respect to the two
pending entries. -/
theorem tokens_unique_and_fresh_witness :
    (issuedToks
      [Ev.output { janus := "create", transaction := some "1" },
       Ev.output { janus := "attach", plugin := some "janus.plugin.echotest",
                   transaction := some "2" }]).Nodup ∧
    alookup
      ((sendCore
        { next_transaction_id := 2,
          transactions :=
            [("1", ⟨{ janus := "create", transaction := some "1" }⟩),
             ("2", ⟨{ janus := "attach", plugin := some "janus.plugin.echotest",
                      transaction := some "2" }⟩)],
          keepaliveOn := true }
        { janus := "message" }).2.1)
      [("1", Txn.mk { janus := "create", transaction := some "1" }),
       ("2", Txn.mk { janus := "attach", plugin := some "janus.plugin.echotest",
                      transaction := some "2" })] = none := by
  have h := tokens_unique_and_fresh
    [Act.send { janus := "create" },
     Act.send { janus := "attach", plugin := some "janus.plugin.echotest" }]
    { next_transaction_id := 2,
      transactions :=
        [("1", ⟨{ janus := "create", transaction := some "1" }⟩),
         ("2", ⟨{ janus := "attach", plugin := some "janus.plugin.echotest",
                  transaction := some "2" }⟩)],
      keepaliveOn := true }
    [Ev.output { janus := "create", transaction := some "1" },
     Ev.output { janus := "attach", plugin := some "janus.plugin.echotest",
                 transaction := some "2" }]
    (by decide)
  exact ⟨h.1, (h.2 { janus := "message" }).2.1⟩

/-- Witness for the amended C9 at a concrete handle and session. -/
theorem detach_effects_amended_witness :
    (pluginDetach { id := some 55, attached := true } { id := some 1 }).2.2.janus = "detach" ∧
    (pluginDetach { id := some 55, attached := true } { id := some 1 }).2.2.handle_id = some 55 ∧
    (detachOnSettle { id := some 55, attached := true }
      (Outcome.fulfilled { janus := "success", transaction := some "1" })).attached = false ∧
    detachOnSettle { id := some 55, attached := true } Outcome.rejectedTimeout =
      { id := some 55, attached := true } := by
  have h := detach_effects_amended { id := some 55, attached := true } { id := some 1 }
  refine ⟨h.1, h.2.1, ?_, h.2.2.2.1⟩
  exact (h.2.2.1 { janus := "success", transaction := some "1" }
    (by decide) (by decide)).2.2.1

end MinnieJanus
